import Mathlib

/-!
Conversational-memory model of the chat backend.

A shallow embedding of `backend/internal/memory/service.go` (with the stage
constants and the `Map` type of `backend/internal/models/user.go`).

Modelling choices.

* A Go `string` is a byte sequence: message contents and keywords are lists
  of bytes (`Bytes`), and `utf8` gives the bytes of a source literal.
* A `map[string]interface{}` is a finite map from keys to dynamic values; it
  is embedded as a function `String → Option Value`.  The loops that range
  over a map assign `result[k]` from the entries at `k` only, so each loop is
  written pointwise in the key.
* Dynamic values carry their Go type, because the code branches on type
  assertions: `float64`, `string`, `[]string`, `[]interface{}`.  Numbers are
  the integral `float64` values (the counters the service writes are all of
  the form `float64(n)`), embedded as `Int`; `int(x)` and `float64(n)` are
  then the identity.
* The database is state passing: `UpdateContext` maps the stored row to the
  stored row, and the JSON encoding of a stored map is `jsonRoundTrip`.
-/

namespace Memory

/-- A Go string: a sequence of bytes. -/
abbrev Bytes := List Nat

/-- UTF-8 encoding of one code point, as the Go compiler stores a literal. -/
def utf8EncodeChar (c : Nat) : List Nat :=
  if c < 0x80 then [c]
  else if c < 0x800 then [0xC0 + c / 64, 0x80 + c % 64]
  else if c < 0x10000 then [0xE0 + c / 4096, 0x80 + c / 64 % 64, 0x80 + c % 64]
  else [0xF0 + c / 262144, 0x80 + c / 4096 % 64, 0x80 + c / 64 % 64, 0x80 + c % 64]

/-- The bytes of a string literal of the source. -/
def utf8 (s : String) : Bytes :=
  s.toList.flatMap (fun c => utf8EncodeChar c.toNat)

/-- An element of a `[]interface{}`: a string, or a value of another type. -/
inductive Item where
  | str (s : String)
  | other (tag : Nat)
  deriving DecidableEq, Repr

/-- A dynamic value held in a `map[string]interface{}`. -/
inductive Value where
  | num (n : Int)
  | str (s : String)
  | strList (l : List String)
  | ifaceList (l : List Item)
  | other (tag : Nat)
  deriving DecidableEq, Repr

/-- The type `models.Map`, a `map[string]interface{}`. -/
abbrev Map := String → Option Value

/-- The map `make(models.Map)`. -/
def Map.empty : Map := fun _ => none

/-- The assignment `m[k] = v`. -/
def Map.set (m : Map) (k : String) (v : Value) : Map :=
  fun k' => if k' = k then some v else m k'

/-- What `json.Unmarshal` reads back from the `json.Marshal` of a value: a
`[]string` comes back as a `[]interface{}` of strings. -/
def jsonRoundTrip : Value → Value
  | .strList l => .ifaceList (l.map Item.str)
  | v => v

/-- A map as read back from its JSONB column. -/
def Map.stored (m : Map) : Map := fun k => (m k).map jsonRoundTrip

def FlirtStageColdStart : Int := 0
def FlirtStageBreakingIce : Int := 1
def FlirtStageWarmUp : Int := 2
def FlirtStageFlirty : Int := 3
def FlirtStageDeep : Int := 4

/-- The fields of `models.MemoryContext` the memory model reads and writes. -/
structure MemoryContext where
  Stage : Int
  TargetTraits : Map
  SuccessfulPatterns : Map

/-- The context `GetOrCreateContext` creates for a new conversation. -/
def newContext : MemoryContext :=
  { Stage := 0, TargetTraits := Map.empty, SuccessfulPatterns := Map.empty }

/-- Byte-wise ASCII lower-casing. -/
def lowercase (s : Bytes) : Bytes :=
  s.map (fun c => if 65 ≤ c ∧ c ≤ 90 then c + 32 else c)

/-- The helper `contains`: `len(s) >= len(substr) && s[:len(substr)] == substr`. -/
def contains (s substr : Bytes) : Bool :=
  decide (s.length ≥ substr.length) && (s.take substr.length == substr)

def countKeywords (s : Bytes) (keywords : List Bytes) : Nat :=
  let lowerS := lowercase s
  keywords.foldl (fun count kw => if contains lowerS (lowercase kw) then count + 1 else count) 0

/-- The body of the loop `for _, item := range existing` of
`mergeStringLists`, on the pair of `seen` (the strings marked so far) and
`result`. -/
def addExisting (st : List String × List Item) (item : Item) : List String × List Item :=
  match item with
  | .str s => if s ∈ st.1 then st else (s :: st.1, st.2 ++ [Item.str s])
  | _ => st

/-- The body of the loop `for _, item := range new` of `mergeStringLists`. -/
def addNew (st : List String × List Item) (item : String) : List String × List Item :=
  if item ∈ st.1 then st else (item :: st.1, st.2 ++ [Item.str item])

def mergeStringLists (existing : List Item) (new : List String) : List Item :=
  let st : List String × List Item := existing.foldl addExisting ([], [])
  let st : List String × List Item := new.foldl addNew st
  st.2

def detectTone (content : Bytes) : String :=
  let positiveKeywords := ["哈哈", "哈哈", "开心", "喜欢", "爱", "棒", "厉害"].map utf8
  let negativeKeywords := ["难过", "伤心", "讨厌", "烦", "生气"].map utf8
  let questionKeywords := ["吗", "呢", "什么", "如何", "怎么"].map utf8
  let positiveCount := countKeywords content positiveKeywords
  let negativeCount := countKeywords content negativeKeywords
  let questionCount := countKeywords content questionKeywords
  if questionCount > 0 then "questioning"
  else if positiveCount > negativeCount then "positive"
  else if negativeCount > positiveCount then "negative"
  else "neutral"

def detectSentiment (content : Bytes) : String :=
  let positiveKeywords :=
    ["哈哈", "哈哈", "开心", "喜欢", "爱", "棒", "厉害", "好", "漂亮", "帅"].map utf8
  let negativeKeywords := ["难过", "伤心", "讨厌", "烦", "生气", "不好", "糟糕"].map utf8
  let positiveCount := countKeywords content positiveKeywords
  let negativeCount := countKeywords content negativeKeywords
  if positiveCount > 0 then "positive"
  else if negativeCount > 0 then "negative"
  else "neutral"

/-- The table `interestKeywords`, in source order. -/
def interestKeywords : List (String × String) :=
  [("音乐", "music"), ("运动", "sports"), ("电影", "movies"), ("旅行", "travel"),
   ("美食", "food"), ("游戏", "gaming"), ("读书", "reading"), ("摄影", "photography"),
   ("健身", "fitness"), ("舞蹈", "dancing"), ("画画", "drawing"), ("唱歌", "singing")]

/-- The table `topicKeywords`, in source order. -/
def topicKeywords : List (String × String) :=
  [("工作", "work"), ("学校", "school"), ("家庭", "family"), ("朋友", "friends"),
   ("学习", "study"), ("梦想", "dreams")]

/-- The loop `for keyword, category := range table` of `extractTraits`: the
categories whose keyword matches, here in the order of the table. -/
def matchKeywords (contentLower : Bytes) (table : List (String × String)) : List String :=
  table.foldl
    (fun acc kv => if contains contentLower (lowercase (utf8 kv.1)) then acc ++ [kv.2] else acc)
    []

def extractTraits (content : Bytes) : Map :=
  let traits := Map.empty
  let contentLower := lowercase content
  let interests := matchKeywords contentLower interestKeywords
  let traits := if interests.length > 0 then traits.set "interests" (.strList interests) else traits
  let topics := matchKeywords contentLower topicKeywords
  let traits := if topics.length > 0 then traits.set "topics" (.strList topics) else traits
  let tone := detectTone contentLower
  let traits := traits.set "tone" (.str tone)
  let sentiment := detectSentiment contentLower
  let traits := traits.set "sentiment" (.str sentiment)
  traits

def calculateStage (currentStage : Int) (content : Bytes) (traits : Map) : Int :=
  let messageCount : Int :=
    match traits "message_count" with
    | some (.num count) => count
    | _ => 1
  if currentStage = FlirtStageColdStart then
    if messageCount ≥ 1 then FlirtStageBreakingIce else currentStage
  else if currentStage = FlirtStageBreakingIce then
    if messageCount ≥ 5 then FlirtStageWarmUp else currentStage
  else if currentStage = FlirtStageWarmUp then
    if messageCount ≥ 10 then
      let sentiment : String :=
        match traits "sentiment" with
        | some (.str s) => s
        | _ => "neutral"
      if sentiment = "positive" ∨ contains (lowercase content) (utf8 "喜欢") = true then
        FlirtStageFlirty
      else currentStage
    else currentStage
  else if currentStage = FlirtStageFlirty then
    if messageCount ≥ 20 then
      let emotionalKeywords := ["想", "想念", "在乎", "在意", "喜欢", "爱"].map utf8
      if emotionalKeywords.any (fun kw => contains (lowercase content) (lowercase kw)) then
        FlirtStageDeep
      else currentStage
    else currentStage
  else currentStage

def mergeTraits (existing new : Map) : Map := fun k =>
  match new k with
  | none => existing k
  | some v =>
    if k = "interests" then
      match existing k with
      | some (.ifaceList existingInterests) =>
        match v with
        | .strList newInterests =>
          some (.ifaceList (mergeStringLists existingInterests newInterests))
        | _ => existing k
      | _ => some v
    else if k = "topics" then
      match existing k with
      | some (.ifaceList existingTopics) =>
        match v with
        | .strList newTopics => some (.ifaceList (mergeStringLists existingTopics newTopics))
        | _ => existing k
      | _ => some v
    else some v

def updatePatterns (existing : Map) (content : Bytes) : Map :=
  let result := existing
  let messageCount : Int :=
    match result "message_count" with
    | some (.num count) => count + 1
    | _ => 1
  let result := result.set "message_count" (.num messageCount)
  let messageType : String :=
    if contains (lowercase content) (utf8 "?") || contains (lowercase content) (utf8 "吗") then
      "question"
    else "statement"
  match result messageType with
  | some (.num typeCount) => result.set messageType (.num (typeCount + 1))
  | _ => result.set messageType (.num 1)

/-- The value of the local variable `messageType` of `updatePatterns`: the
counter the content is counted under. -/
def messageType (content : Bytes) : String :=
  if contains (lowercase content) (utf8 "?") || contains (lowercase content) (utf8 "吗") then
    "question"
  else "statement"

/-- The row `UpdateContext` stores for a context and a message (the path on
which both database calls succeed). -/
def UpdateContext (memoryCtx : MemoryContext) (content : Bytes) : MemoryContext :=
  let newTraits := extractTraits content
  let newStage := calculateStage memoryCtx.Stage content memoryCtx.TargetTraits
  let updatedTraits := mergeTraits memoryCtx.TargetTraits newTraits
  let updatedPatterns := updatePatterns memoryCtx.SuccessfulPatterns content
  { Stage := newStage
    TargetTraits := updatedTraits.stored
    SuccessfulPatterns := updatedPatterns.stored }

/-- The stages of a conversation: the stage of the starting context, then the
stage stored by each update in turn. -/
def stageTrace (memoryCtx : MemoryContext) : List Bytes → List Int
  | [] => [memoryCtx.Stage]
  | content :: rest => memoryCtx.Stage :: stageTrace (UpdateContext memoryCtx content) rest

/-- The strings among the items of a `[]interface{}`, in order. -/
def itemStrings : List Item → List String
  | [] => []
  | .str s :: rest => s :: itemStrings rest
  | .other _ :: rest => itemStrings rest

/-- A list without its repetitions: each string at its first occurrence. -/
def firstSeen : List String → List String
  | [] => []
  | x :: xs => x :: (firstSeen xs).filter (fun y => decide (y ≠ x))

/-- The merged trait list as the specification words it: the existing items
in their first-seen order, followed by the new items not already present,
without duplicates. -/
def unionFirstSeen (existing new : List String) : List String :=
  firstSeen existing ++ (firstSeen new).filter (fun y => decide (y ∉ existing))

/-! ### The same code with its run-time checks

An index `s[i]` or a slice `s[:n]` out of range stops a Go program.  The
definitions below repeat the helpers with these checks made explicit: `none`
stands for the panic.  The type assertions of the code all have the two-value
form `v, ok := x.(T)`, which never panics; they stay the `match` they are. -/

/-- The index expression `s[i]`. -/
def indexAt (s : Bytes) (i : Nat) : Option Nat := s[i]?

/-- The assignment `result[i] = c`. -/
def assignAt (result : Bytes) (i : Nat) (c : Nat) : Option Bytes :=
  if i < result.length then some (result.set i c) else none

/-- The slice expression `s[:n]`. -/
def sliceTo (s : Bytes) (n : Nat) : Option Bytes :=
  if n ≤ s.length then some (s.take n) else none

/-- The function `lowercase` as written: a buffer of `len(s)` bytes, filled
by the loop `for i := 0; i < len(s); i++`. -/
def lowercaseChecked (s : Bytes) : Option Bytes :=
  (List.range s.length).foldlM
    (fun result i => do
      let c ← indexAt s i
      let c := if 65 ≤ c ∧ c ≤ 90 then c + 32 else c
      assignAt result i c)
    (List.replicate s.length 0)

/-- The function `contains` as written: `&&` evaluates the slice only when the
length test holds. -/
def containsChecked (s substr : Bytes) : Option Bool :=
  if s.length ≥ substr.length then do
    let head ← sliceTo s substr.length
    pure (head == substr)
  else pure false

def countKeywordsChecked (s : Bytes) (keywords : List Bytes) : Option Nat := do
  let lowerS ← lowercaseChecked s
  keywords.foldlM
    (fun count kw => do
      let lowerKw ← lowercaseChecked kw
      let found ← containsChecked lowerS lowerKw
      pure (if found then count + 1 else count))
    0

def detectToneChecked (content : Bytes) : Option String := do
  let positiveKeywords := ["哈哈", "哈哈", "开心", "喜欢", "爱", "棒", "厉害"].map utf8
  let negativeKeywords := ["难过", "伤心", "讨厌", "烦", "生气"].map utf8
  let questionKeywords := ["吗", "呢", "什么", "如何", "怎么"].map utf8
  let positiveCount ← countKeywordsChecked content positiveKeywords
  let negativeCount ← countKeywordsChecked content negativeKeywords
  let questionCount ← countKeywordsChecked content questionKeywords
  pure (if questionCount > 0 then "questioning"
    else if positiveCount > negativeCount then "positive"
    else if negativeCount > positiveCount then "negative"
    else "neutral")

def detectSentimentChecked (content : Bytes) : Option String := do
  let positiveKeywords :=
    ["哈哈", "哈哈", "开心", "喜欢", "爱", "棒", "厉害", "好", "漂亮", "帅"].map utf8
  let negativeKeywords := ["难过", "伤心", "讨厌", "烦", "生气", "不好", "糟糕"].map utf8
  let positiveCount ← countKeywordsChecked content positiveKeywords
  let negativeCount ← countKeywordsChecked content negativeKeywords
  pure (if positiveCount > 0 then "positive"
    else if negativeCount > 0 then "negative"
    else "neutral")

def matchKeywordsChecked (contentLower : Bytes) (table : List (String × String)) :
    Option (List String) :=
  table.foldlM
    (fun acc kv => do
      let lowerKw ← lowercaseChecked (utf8 kv.1)
      let found ← containsChecked contentLower lowerKw
      pure (if found then acc ++ [kv.2] else acc))
    []

def extractTraitsChecked (content : Bytes) : Option Map := do
  let traits := Map.empty
  let contentLower ← lowercaseChecked content
  let interests ← matchKeywordsChecked contentLower interestKeywords
  let traits := if interests.length > 0 then traits.set "interests" (.strList interests) else traits
  let topics ← matchKeywordsChecked contentLower topicKeywords
  let traits := if topics.length > 0 then traits.set "topics" (.strList topics) else traits
  let tone ← detectToneChecked contentLower
  let traits := traits.set "tone" (.str tone)
  let sentiment ← detectSentimentChecked contentLower
  let traits := traits.set "sentiment" (.str sentiment)
  pure traits

/-- The loop over `emotionalKeywords` of `calculateStage`, which returns at
the first keyword found. -/
def anyKeywordChecked (content : Bytes) : List Bytes → Option Bool
  | [] => pure false
  | kw :: rest => do
    let lowerContent ← lowercaseChecked content
    let lowerKw ← lowercaseChecked kw
    let found ← containsChecked lowerContent lowerKw
    if found then pure true else anyKeywordChecked content rest

def calculateStageChecked (currentStage : Int) (content : Bytes) (traits : Map) : Option Int := do
  let messageCount : Int :=
    match traits "message_count" with
    | some (.num count) => count
    | _ => 1
  if currentStage = FlirtStageColdStart then
    if messageCount ≥ 1 then pure FlirtStageBreakingIce else pure currentStage
  else if currentStage = FlirtStageBreakingIce then
    if messageCount ≥ 5 then pure FlirtStageWarmUp else pure currentStage
  else if currentStage = FlirtStageWarmUp then
    if messageCount ≥ 10 then
      let sentiment : String :=
        match traits "sentiment" with
        | some (.str s) => s
        | _ => "neutral"
      if sentiment = "positive" then pure FlirtStageFlirty
      else do
        let lowerContent ← lowercaseChecked content
        let found ← containsChecked lowerContent (utf8 "喜欢")
        if found then pure FlirtStageFlirty else pure currentStage
    else pure currentStage
  else if currentStage = FlirtStageFlirty then
    if messageCount ≥ 20 then do
      let emotionalKeywords := ["想", "想念", "在乎", "在意", "喜欢", "爱"].map utf8
      let found ← anyKeywordChecked content emotionalKeywords
      if found then pure FlirtStageDeep else pure currentStage
    else pure currentStage
  else pure currentStage

def updatePatternsChecked (existing : Map) (content : Bytes) : Option Map := do
  let result := existing
  let messageCount : Int :=
    match result "message_count" with
    | some (.num count) => count + 1
    | _ => 1
  let result := result.set "message_count" (.num messageCount)
  let lowerContent ← lowercaseChecked content
  let isMark ← containsChecked lowerContent (utf8 "?")
  let isQuestion ←
    if isMark then pure true
    else do
      let lowerContent ← lowercaseChecked content
      containsChecked lowerContent (utf8 "吗")
  let messageType : String := if isQuestion then "question" else "statement"
  match result messageType with
  | some (.num typeCount) => pure (result.set messageType (.num (typeCount + 1)))
  | _ => pure (result.set messageType (.num 1))

/-- Every keyword of the tables and lists `extractTraits` consults. -/
def allKeywords : List String :=
  ["音乐", "运动", "电影", "旅行", "美食", "游戏", "读书", "摄影", "健身", "舞蹈", "画画", "唱歌",
   "工作", "学校", "家庭", "朋友", "学习", "梦想",
   "哈哈", "开心", "喜欢", "爱", "棒", "厉害", "好", "漂亮", "帅",
   "难过", "伤心", "讨厌", "烦", "生气", "不好", "糟糕",
   "吗", "呢", "什么", "如何", "怎么"]

/-! ### Runs of updates -/

/-- A run of `UpdateContext` calls on one conversation: each call works on the
row the call before it stored. -/
def runUpdates (memoryCtx : MemoryContext) (contents : List Bytes) : MemoryContext :=
  contents.foldl UpdateContext memoryCtx

/-- A run of `updatePatterns` calls, each on the map the call before it
returned. -/
def runPatterns (existing : Map) (contents : List Bytes) : Map :=
  contents.foldl updatePatterns existing

/-- The number held by a counter of a pattern map, an absent counter counting
as 0. -/
def counter (m : Map) (k : String) : Int :=
  match m k with
  | some (.num n) => n
  | _ => 0

/-- The function `extractTraits` with the orders in which its two `range`
loops visit the keyword maps as parameters; `extractTraits` itself is the
instance at the source order of the two tables. -/
def extractTraitsIn (interestOrder topicOrder : List (String × String)) (content : Bytes) :
    Map :=
  let traits := Map.empty
  let contentLower := lowercase content
  let interests := matchKeywords contentLower interestOrder
  let traits := if interests.length > 0 then traits.set "interests" (.strList interests) else traits
  let topics := matchKeywords contentLower topicOrder
  let traits := if topics.length > 0 then traits.set "topics" (.strList topics) else traits
  let tone := detectTone contentLower
  let traits := traits.set "tone" (.str tone)
  let sentiment := detectSentiment contentLower
  let traits := traits.set "sentiment" (.str sentiment)
  traits

end Memory

/-!
The relay of `backend/internal/api/websocket.go`.

The store and the registry are explicit state.  A table is a function from
its primary key (`id UUID PRIMARY KEY`) to the rest of the row, the registry
`wsManager.connections` a function from user id to connection, and the frames
written to connections are collected in a log.  A statement of the store is
atomic and, unless said otherwise, succeeds; the mutex makes each access to
the registry atomic.
-/

namespace Relay

/-- The type `uuid.UUID`. -/
abbrev UUID := Nat

/-- The zero value of `uuid.UUID`, `uuid.Nil`. -/
def uuidNil : UUID := 0

/-- The identity of a `*WebSocketConnection`. -/
abbrev Handle := Nat

def MessageStatusSent : String := "sent"
def MessageStatusDelivered : String := "delivered"
def MessageStatusRead : String := "read"

def MessageTypeText : String := "text"

/-- A row of the table `conversations`, without its key. -/
structure ConversationRow where
  User1ID : UUID
  User2ID : UUID
  LastMessageAt : Nat
  deriving DecidableEq, Repr

/-- A row of the table `messages`, without its key. -/
structure MessageRow where
  ConversationID : UUID
  SenderID : UUID
  Content : Memory.Bytes
  MessageType : String
  Status : String
  CreatedAt : Nat
  deriving DecidableEq, Repr

/-- The struct `models.Message`. -/
structure Message where
  ID : UUID
  ConversationID : UUID
  SenderID : UUID
  Content : Memory.Bytes
  MessageType : String
  Status : String
  CreatedAt : Nat
  deriving DecidableEq, Repr

/-- An outbound frame `WSMessage{Type, Data}`. -/
inductive WSFrame where
  | connect (userID : UUID)
  | message (data : Message)
  | typing (conversationID : UUID) (isTyping : Bool)
  | read (conversationID : UUID) (messageIDs : List UUID)
  deriving DecidableEq, Repr

/-- The map `wsManager.connections`. -/
abbrev Connections := UUID → Option Handle

/-- The store, the registry and the frames written so far (oldest first). -/
structure World where
  conversations : UUID → Option ConversationRow
  messages : UUID → Option MessageRow
  connections : Connections
  written : List (Handle × WSFrame)
  now : Nat

/-! ### Registry -/

/-- The registration `wsManager.connections[userID] = conn` of `HandleUpgrade`. -/
def register (c : Connections) (userID : UUID) (conn : Handle) : Connections :=
  fun u => if u = userID then some conn else c u

/-- The deferred cleanup `delete(wsManager.connections, userID)` of
`HandleUpgrade`. -/
def cleanup (c : Connections) (userID : UUID) : Connections :=
  fun u => if u = userID then none else c u

/-- The lookup `wsManager.connections[userID]`. -/
def lookup (c : Connections) (userID : UUID) : Option Handle := c userID

/-- The registry together with the allocation of connections: every
`&WebSocketConnection{...}` is a new object, here the next number. -/
structure Registry where
  connections : Connections
  nextHandle : Handle

/-- The registry of `NewWebSocketManager`. -/
def Registry.init : Registry := { connections := fun _ => none, nextHandle := 0 }

/-- What happens to the registry: a connection of a user is upgraded, or the
deferred cleanup of a connection of a user runs. -/
inductive RegistryEvent where
  | upgrade (userID : UUID)
  | disconnect (userID : UUID)
  deriving DecidableEq, Repr

def Registry.step (r : Registry) : RegistryEvent → Registry
  | .upgrade userID =>
    { connections := register r.connections userID r.nextHandle, nextHandle := r.nextHandle + 1 }
  | .disconnect userID => { r with connections := cleanup r.connections userID }

/-- The registry after a sequence of events, from the empty registry. -/
def Registry.run (events : List RegistryEvent) : Registry :=
  events.foldl Registry.step Registry.init

/-! ### Store statements -/

/-- The query of the counterpart:
`SELECT CASE WHEN user1_id = $1 THEN user2_id ELSE user1_id END FROM
conversations WHERE id = $2 AND (user1_id = $1 OR user2_id = $1)`;
`none` is `sql.ErrNoRows`. -/
def queryOtherUser (w : World) (userID conversationID : UUID) : Option UUID :=
  match w.conversations conversationID with
  | some c =>
    if c.User1ID = userID ∨ c.User2ID = userID then
      some (if c.User1ID = userID then c.User2ID else c.User1ID)
    else none
  | none => none

/-- The statement `INSERT INTO messages (...) VALUES (...)`; `none` is the
error of a key that exists already. -/
def insertMessage (w : World) (msgID : UUID) (row : MessageRow) : Option World :=
  match w.messages msgID with
  | some _ => none
  | none => some { w with messages := fun k => if k = msgID then some row else w.messages k }

/-- The statement `UPDATE conversations SET last_message_at = NOW() WHERE id = $1`. -/
def touchConversation (w : World) (conversationID : UUID) : World :=
  { w with conversations := fun k =>
      if k = conversationID then
        (w.conversations k).map (fun c => { c with LastMessageAt := w.now })
      else w.conversations k }

/-- The query `SELECT ... FROM messages WHERE id = $1` scanned into a
`models.Message`, which keeps its zero value when there is no row. -/
def selectMessage (w : World) (msgID : UUID) : Message :=
  match w.messages msgID with
  | some r =>
    { ID := msgID, ConversationID := r.ConversationID, SenderID := r.SenderID,
      Content := r.Content, MessageType := r.MessageType, Status := r.Status,
      CreatedAt := r.CreatedAt }
  | none =>
    { ID := uuidNil, ConversationID := uuidNil, SenderID := uuidNil, Content := [],
      MessageType := "", Status := "", CreatedAt := 0 }

/-- The statement `UPDATE messages SET status = $1 WHERE id = $2` with status
`delivered`. -/
def markDelivered (w : World) (msgID : UUID) : World :=
  { w with messages := fun k =>
      if k = msgID then (w.messages k).map (fun r => { r with Status := MessageStatusDelivered })
      else w.messages k }

/-- The statement `UPDATE messages SET status = $1 WHERE id = ANY($2) AND
conversation_id = $3 AND sender_id != $4` with status `read`. -/
def markRead (w : World) (messageIDs : List UUID) (conversationID userID : UUID) : World :=
  { w with messages := fun k =>
      (w.messages k).map (fun r =>
        if k ∈ messageIDs ∧ r.ConversationID = conversationID ∧ r.SenderID ≠ userID then
          { r with Status := MessageStatusRead }
        else r) }

/-- The call `conn.Connection.WriteJSON(frame)`. -/
def writeJSON (w : World) (conn : Handle) (frame : WSFrame) : World :=
  { w with written := w.written ++ [(conn, frame)] }

/-! ### Handlers -/

/-- What `handleWSMessageSend` reads off an inbound frame.  `conversationID`
is `none` when the field is missing, is not a string or does not parse;
`content` and `messageType` are `none` when the field is missing or is not a
string. -/
structure MessageFrame where
  conversationID : Option UUID
  content : Option Memory.Bytes
  messageType : Option String

/-- The handler `handleWSMessageSend` up to the write to the recipient (lines
163 to 241): the world it leaves, and the id of the message it has still to
mark delivered, if the recipient is registered.  `msgID` is the value of
`uuid.New()`. -/
def pushMessage (userID : UUID) (frame : MessageFrame) (msgID : UUID) (w : World) :
    World × Option UUID :=
  match frame.conversationID with
  | none => (w, none)
  | some conversationID =>
    match frame.content with
    | none => (w, none)
    | some content =>
      if content = [] then (w, none)
      else
        let messageType := match frame.messageType with
          | some mt => mt
          | none => MessageTypeText
        match queryOtherUser w userID conversationID with
        | none => (w, none)
        | some otherUserID =>
          match insertMessage w msgID
              { ConversationID := conversationID, SenderID := userID, Content := content,
                MessageType := messageType, Status := MessageStatusSent, CreatedAt := w.now } with
          | none => (w, none)
          | some w =>
            let w := touchConversation w conversationID
            let message := selectMessage w msgID
            let w := match w.connections userID with
              | some senderConn => writeJSON w senderConn (.message message)
              | none => w
            match w.connections otherUserID with
            | some recipientConn => (writeJSON w recipientConn (.message message), some msgID)
            | none => (w, none)

/-- The handler `handleWSMessageSend`, run without interruption. -/
def handleWSMessageSend (userID : UUID) (frame : MessageFrame) (msgID : UUID) (w : World) :
    World :=
  match pushMessage userID frame msgID w with
  | (w, some delivered) => markDelivered w delivered
  | (w, none) => w

/-- What `handleWSTyping` reads off an inbound frame. -/
structure TypingFrame where
  conversationID : Option UUID
  isTyping : Option Bool

/-- The handler `handleWSTyping`.  The error of the counterpart query is
dropped, which leaves `otherUserID` at its zero value. -/
def handleWSTyping (userID : UUID) (frame : TypingFrame) (w : World) : World :=
  match frame.conversationID with
  | none => w
  | some conversationID =>
    match frame.isTyping with
    | none => w
    | some isTyping =>
      let otherUserID := match queryOtherUser w userID conversationID with
        | some other => other
        | none => uuidNil
      match w.connections otherUserID with
      | some recipientConn => writeJSON w recipientConn (.typing conversationID isTyping)
      | none => w

/-- What `handleWSRead` reads off an inbound frame.  `messageIDs` is the slice
built from `msg["message_ids"]`: one id for each item, the outcome of
`uuid.Parse` or the zero value for an item that is not a string. -/
structure ReadFrame where
  conversationID : Option UUID
  messageIDs : Option (List UUID)

/-- The handler `handleWSRead`. -/
def handleWSRead (userID : UUID) (frame : ReadFrame) (w : World) : World :=
  match frame.conversationID with
  | none => w
  | some conversationID =>
    match frame.messageIDs with
    | none => w
    | some messageIDs =>
      if messageIDs.length = 0 then w
      else
        let w := markRead w messageIDs conversationID userID
        let otherUserID := match queryOtherUser w userID conversationID with
          | some other => other
          | none => uuidNil
        match w.connections otherUserID with
        | some recipientConn => writeJSON w recipientConn (.read conversationID messageIDs)
        | none => w

/-- The place of a status in the order `sent < delivered < read`. -/
def statusRank (status : String) : Nat :=
  if status = MessageStatusRead then 2
  else if status = MessageStatusDelivered then 1
  else 0

/-- The status of a message, `none` when there is no such message. -/
def statusOf (w : World) (msgID : UUID) : Option String :=
  (w.messages msgID).map (fun r => r.Status)

/-- A frame handled to completion, with the user of its connection. -/
inductive RelayEvent where
  | message (userID : UUID) (frame : MessageFrame) (msgID : UUID)
  | typing (userID : UUID) (frame : TypingFrame)
  | read (userID : UUID) (frame : ReadFrame)

def RelayEvent.handle (w : World) : RelayEvent → World
  | .message userID frame msgID => handleWSMessageSend userID frame msgID w
  | .typing userID frame => handleWSTyping userID frame w
  | .read userID frame => handleWSRead userID frame w

/-- The world after a sequence of frames, each handled to completion before
the next. -/
def runEvents (w : World) (events : List RelayEvent) : World :=
  events.foldl RelayEvent.handle w

/-- A small world: conversation `1` between the users `10` and `20`, with one
message `100` sent by `10` and not yet delivered; both users are connected,
`10` on connection `0` and `20` on connection `1`. -/
def exampleWorld : World :=
  { conversations := fun k =>
      if k = 1 then some { User1ID := 10, User2ID := 20, LastMessageAt := 3 } else none
    messages := fun k =>
      if k = 100 then
        some { ConversationID := 1, SenderID := 10, Content := Memory.utf8 "hi",
               MessageType := "text", Status := "sent", CreatedAt := 3 }
      else none
    connections := fun u => if u = 10 then some 0 else if u = 20 then some 1 else none
    written := []
    now := 5 }

/-- A message frame for conversation `1` with content "hello". -/
def exampleMessageFrame : MessageFrame :=
  { conversationID := some 1, content := some (Memory.utf8 "hello"), messageType := none }

/-! ### The HTTP send path and the memory table -/

def MessageTypeImage : String := "image"
def MessageTypeVoice : String := "voice"

/-- The table `memory_context`, by its unique key `(conversation_id, user_id)`. -/
abbrev MemoryTable := UUID × UUID → Option Memory.MemoryContext

/-- The store of the relay together with the table `memory_context`. -/
structure App where
  world : World
  memory : MemoryTable

/-- The method `Service.UpdateContext` on the table: `GetOrCreateContext`
reads the row of the conversation and user, or creates the row of a new
context, and the `UPDATE` stores the row computed from it and the content. -/
def memoryUpdateContext (memory : MemoryTable) (conversationID userID : UUID)
    (content : Memory.Bytes) : MemoryTable :=
  let memoryCtx := match memory (conversationID, userID) with
    | some ctx => ctx
    | none => Memory.newContext
  fun k =>
    if k = (conversationID, userID) then some (Memory.UpdateContext memoryCtx content)
    else memory k

/-- The payload `models.SendMessageRequest`; a field the body leaves out is
the empty string. -/
structure SendMessageRequest where
  Content : Memory.Bytes
  MessageType : String

/-- The HTTP handler `sendMessage` of `api/chat.go`: the store it leaves, the
status code and the message it answers with.  `conversationID` is `none`
when the path parameter does not parse, `req` is `none` when the body does
not parse, `msgID` is the value of `uuid.New()`.  The memory update the
handler starts with `go func() {...}()` is taken to have run. -/
def sendMessage (userID : UUID) (conversationID : Option UUID) (req : Option SendMessageRequest)
    (msgID : UUID) (app : App) : App × Nat × Option Message :=
  match conversationID with
  | none => (app, 400, none)
  | some conversationID =>
    match req with
    | none => (app, 400, none)
    | some req =>
      if req.Content = [] then (app, 400, none)
      else
        match queryOtherUser app.world userID conversationID with
        | none => (app, 403, none)
        | some _ =>
          let messageType := if req.MessageType = "" then MessageTypeText else req.MessageType
          match insertMessage app.world msgID
              { ConversationID := conversationID, SenderID := userID, Content := req.Content,
                MessageType := messageType, Status := MessageStatusSent,
                CreatedAt := app.world.now } with
          | none => (app, 500, none)
          | some w =>
            let w := touchConversation w conversationID
            let memory := memoryUpdateContext app.memory conversationID userID req.Content
            let msg := selectMessage w msgID
            ({ world := w, memory := memory }, 201, some msg)

/-- The handler `handleWSMessageSend` on the whole store.  Its statements
name the tables `conversations` and `messages` only and it makes no call to
the memory service, so the table `memory_context` is as it was. -/
def handleWSMessageSendApp (userID : UUID) (frame : MessageFrame) (msgID : UUID) (app : App) :
    App :=
  { world := handleWSMessageSend userID frame msgID app.world, memory := app.memory }

/-- The small world with an empty table `memory_context`. -/
def exampleApp : App := { world := exampleWorld, memory := fun _ => none }

/-! ### Order of handling -/

/-- The frames written to one connection, in the order of the writes. -/
def receivedBy (w : World) (conn : Handle) : List WSFrame :=
  (w.written.filter (fun p => decide (p.1 = conn))).map Prod.snd

/-- The read loop of `HandleUpgrade` starts the handler of each frame it
reads with `go a.handleWSMessage(conn, message)` and waits for none of them:
the orders in which the handlers of the frames read can run, each handler to
completion. -/
def handlingOrders (frames : List RelayEvent) : List (List RelayEvent) :=
  frames.permutations

end Relay

/-!
The suggestion path of `backend/internal/llm/client.go` and
`backend/internal/api/ai.go`.

Texts are byte strings; the answers of the model API and of `json.Unmarshal`
are inputs of the functions that use them.
-/

namespace Suggest

open Memory (Bytes utf8 Item Value Map)

set_option linter.unusedVariables false

/-- The type `models.Suggestion`. -/
structure Suggestion where
  Text : String
  Style : String
  Reason : String
  deriving DecidableEq, Repr

def FlirtStyleDirect : String := "direct"
def FlirtStyleHumorous : String := "humorous"
def FlirtStyleRomantic : String := "romantic"
def FlirtStyleSubtle : String := "subtle"

/-- The map `models.FlirtStyleNames`, read as Go reads a map: the empty
string at a key it does not hold. -/
def FlirtStyleNames (style : String) : String :=
  if style = FlirtStyleDirect then "直球型"
  else if style = FlirtStyleHumorous then "幽默风趣"
  else if style = FlirtStyleRomantic then "温柔浪漫"
  else if style = FlirtStyleSubtle then "含蓄内敛"
  else ""

/-- The map `models.FlirtStageNames`, read as Go reads a map. -/
def FlirtStageNames (stage : Int) : String :=
  if stage = Memory.FlirtStageColdStart then "冷启动"
  else if stage = Memory.FlirtStageBreakingIce then "破冰"
  else if stage = Memory.FlirtStageWarmUp then "热身"
  else if stage = Memory.FlirtStageFlirty then "暧昧"
  else if stage = Memory.FlirtStageDeep then "深入"
  else ""

/-! ### Fallback suggestions -/

def getFallbackSuggestions (flirtStyle : String) (stage : Int) (targetName : Bytes) :
    List Suggestion :=
  let stageName := FlirtStageNames stage
  let stageName := if stageName = "" then "未知" else stageName
  let suggestions : List Suggestion := []
  let userStyleSuggestion : Suggestion :=
    { Text := "", Style := FlirtStyleNames flirtStyle, Reason := "" }
  let userStyleSuggestion : Suggestion :=
    if flirtStyle = FlirtStyleDirect then
      { userStyleSuggestion with
        Text := "我想直接告诉你，和你聊天真的很开心"
        Reason := "直接表达情感，展现真诚态度" }
    else if flirtStyle = FlirtStyleHumorous then
      { userStyleSuggestion with
        Text := "哈哈，你这人说话真有意思，和你聊天特别放松"
        Reason := "用轻松愉快的语气，增加互动趣味" }
    else if flirtStyle = FlirtStyleRomantic then
      { userStyleSuggestion with
        Text := "感觉和你聊天就像认识很久的朋友一样，很舒服"
        Reason := "用温柔浪漫的语气，拉近心理距离" }
    else if flirtStyle = FlirtStyleSubtle then
      { userStyleSuggestion with
        Text := "每次和你聊天都觉得时间过得很快，可能是因为太投机了吧"
        Reason := "含蓄地表达对聊天的珍视" }
    else
      { userStyleSuggestion with
        Text := "和你聊天感觉很棒"
        Reason := "表达聊天的愉悦感受" }
  let suggestions := suggestions ++ [userStyleSuggestion]
  let suggestions := suggestions ++
    [{ Text := "看来我们很有共同语言嘛，以后要多聊聊~"
       Style := "幽默风趣"
       Reason := "用轻松的语气发现共同点，鼓励继续交流" }]
  let suggestions := suggestions ++
    [{ Text := "感觉和你聊天的时候，心情都会变好"
       Style := "温柔浪漫"
       Reason := "表达对方带来的正面影响，增进情感连接" }]
  suggestions

/-! ### The prompt -/

/-- An element of `req.ChatHistory` as `buildPrompt` reads it: the values of
the assertions `msg["is_self"].(bool)` and `msg["content"].(string)`, `none`
when the key is missing or holds a value of another type. -/
structure HistoryEntry where
  isSelf : Option Bool
  content : Option Bytes
  deriving DecidableEq, Repr

/-- The fields of `llm.SuggestionRequest` that `buildPrompt` reads. -/
structure SuggestionRequest where
  OtherUserGender : Option String
  OtherUserNickname : Bytes
  Stage : Int
  UserFlirtStyle : String
  ChatHistory : List HistoryEntry
  TargetTraits : Map

/-- The line `buildPrompt` writes for one entry of the history: the speaker,
the content and a line feed. -/
def historyLine (msg : HistoryEntry) : Bytes :=
  let isSelf := msg.isSelf.getD false
  let content := msg.content.getD []
  let speaker := if isSelf then utf8 "你: " else utf8 "对方: "
  speaker ++ content ++ utf8 "\n"

/-- The loop `for i, msg := range req.ChatHistory` of `buildPrompt`, from
index `i` on, with the text built so far; it ends after the entry at which
`i >= 4`. -/
def historyLoop : Nat → Bytes → List HistoryEntry → Bytes
  | _, history, [] => history
  | i, history, msg :: rest =>
    let history := history ++ historyLine msg
    if i ≥ 4 then history else historyLoop (i + 1) history rest

/-- The value of the variable `history` of `buildPrompt`. -/
def buildHistory (chatHistory : List HistoryEntry) : Bytes :=
  historyLoop 0 [] chatHistory

/-- The loops `for i, interest := range interests` and `for i, topic := range
topics` of `buildPrompt`, from index `i` on; `none` when an element is not a
string, where the assertion `interest.(string)` fails. -/
def joinItems : Nat → Bytes → List Item → Option Bytes
  | _, traits, [] => some traits
  | i, traits, item :: rest =>
    let traits := if i > 0 then traits ++ utf8 ", " else traits
    match item with
    | .str s => joinItems (i + 1) (traits ++ utf8 s) rest
    | .other _ => none

/-- The value of the variable `traits` of `buildPrompt`. -/
def buildTraits (targetTraits : Map) : Option Bytes := do
  let traits : Bytes := []
  let traits ←
    match targetTraits "interests" with
    | some (.ifaceList interests) =>
      if interests.length > 0 then
        (joinItems 0 (traits ++ utf8 "兴趣爱好: ") interests).map (fun t => t ++ utf8 "\n")
      else some traits
    | _ => some traits
  let traits ←
    match targetTraits "topics" with
    | some (.ifaceList topics) =>
      if topics.length > 0 then
        (joinItems 0 (traits ++ utf8 "话题: ") topics).map (fun t => t ++ utf8 "\n")
      else some traits
    | _ => some traits
  pure traits

/-- The format string of `buildPrompt`, cut at its seven `%s`. -/
def promptPart0 : String :=
  "你是一个专业的中文聊天和约会助手。根据以下信息生成3条回复建议：\n" ++
  "\n" ++
  "【当前语境】\n" ++
  "- 对话阶段: "

def promptPart1 : String :=
  "\n" ++
  "- 你的风格: "

def promptPart2 : String :=
  "\n" ++
  "- 对方: "

def promptPart3 : String :=
  " ("

def promptPart4 : String :=
  ")\n" ++
  "- 对话历史:\n"

def promptPart5 : String :=
  "\n" ++
  "- 对方特点:\n"

def promptPart6 : String :=
  "\n" ++
  "\n" ++
  "【要求】\n" ++
  "1. 必须生成恰好3条建议，每条风格不同\n" ++
  "2. 第1条：符合你偏好的风格 ("

def promptPart7 : String :=
  ")\n" ++
  "3. 第2条：幽默风趣 - 适合轻松氛围\n" ++
  "4. 第3条：温柔浪漫 - 适合推进关系\n" ++
  "5. 回复自然、不油腻\n" ++
  "6. 符合当前对话阶段\n" ++
  "7. 引导继续对话\n" ++
  "8. 保持尊重和礼貌\n" ++
  "\n" ++
  "请生成JSON格式回复:\n" ++
  "\x7b\n" ++
  "  \"suggestions\": [\n" ++
  "    \x7b\"text\": \"...\", \"style\": \"用户风格\", \"reason\": \"...\"\x7d,\n" ++
  "    \x7b\"text\": \"...\", \"style\": \"幽默风趣\", \"reason\": \"...\"\x7d,\n" ++
  "    \x7b\"text\": \"...\", \"style\": \"温柔浪漫\", \"reason\": \"...\"\x7d\n" ++
  "  ]\n" ++
  "\x7d\n" ++
  "\n" ++
  "只输出JSON，不要有任何其他文字。"

/-- The prompt of `buildPrompt`: the text of its format string with the seven
values filled in; `none` when building the traits fails. -/
def buildPrompt (req : SuggestionRequest) : Option Bytes := do
  let stageName := FlirtStageNames req.Stage
  let stageName := if stageName = "" then "未知" else stageName
  let styleName := FlirtStyleNames req.UserFlirtStyle
  let styleName := if styleName = "" then "幽默风趣" else styleName
  let gender :=
    match req.OtherUserGender with
    | none => "对方"
    | some g => if g = "male" then "他" else if g = "female" then "她" else "TA"
  let history := buildHistory req.ChatHistory
  let traits ← buildTraits req.TargetTraits
  pure (utf8 promptPart0 ++ utf8 stageName ++ utf8 promptPart1 ++ utf8 req.UserFlirtStyle
    ++ utf8 promptPart2 ++ req.OtherUserNickname ++ utf8 promptPart3 ++ utf8 gender
    ++ utf8 promptPart4 ++ history ++ utf8 promptPart5 ++ traits ++ utf8 promptPart6
    ++ utf8 req.UserFlirtStyle ++ utf8 promptPart7)

/-- The history section as the specification words it: the `min(n, 5)` most
recent turns of a chronologically ordered history, in chronological order,
each as its line. -/
def recentHistory (chatHistory : List HistoryEntry) : Bytes :=
  (chatHistory.drop (chatHistory.length - 5)).flatMap historyLine

/-! ### Reading the answer -/

/-- The ASCII white space: tab, line feed, vertical tab, form feed, carriage
return, space. -/
def isSpace (c : Nat) : Bool :=
  c = 9 || c = 10 || c = 11 || c = 12 || c = 13 || c = 32

/-- The library function `bytes.TrimSpace` for ASCII white space: the text
without its leading and trailing white space.  (The library strips the
white space of Unicode beyond ASCII as well; this model keeps it.) -/
def trimSpace (s : Bytes) : Bytes :=
  ((s.dropWhile isSpace).reverse.dropWhile isSpace).reverse

/-- The library function `bytes.Index` for a separator of one byte: the
position of its first occurrence, or `-1`. -/
def index (s : Bytes) (c : Nat) : Int :=
  if c ∈ s then (s.indexOf c : Nat) else -1

/-- The library function `bytes.LastIndex` for a separator of one byte: the
position of its last occurrence, or `-1`. -/
def lastIndex (s : Bytes) (c : Nat) : Int :=
  if c ∈ s then (s.length - 1 - s.reverse.indexOf c : Nat) else -1

/-- The slice expression `s[low:high]` with its bounds check
`0 <= low <= high <= len(s)`; `none` is the run-time failure. -/
def slice (s : Bytes) (low high : Int) : Option Bytes :=
  if 0 ≤ low ∧ low ≤ high ∧ high ≤ s.length then
    some ((s.take high.toNat).drop low.toNat)
  else none

/-- The function `extractJSON`; `none` is the slice-bounds failure of
`s[start : end+1]`.  The bytes `123` and `125` are the opening and the
closing brace. -/
def extractJSON (s : Bytes) : Option Bytes :=
  let s := trimSpace s
  let start := index s 123
  if start = -1 then some s
  else
    let endIndex := lastIndex s 125
    if endIndex = -1 then some s
    else slice s start (endIndex + 1)

/-- What the suggestion path takes from outside the program: the value of
the environment variable `LLM_API_KEY`, the answer of `client.Call` to a
prompt, and the list `json.Unmarshal` puts into `result.Suggestions` for a
text (`none` when it returns an error). -/
structure Env where
  apiKey : String
  call : Bytes → Except String Bytes
  unmarshal : Bytes → Option (List Suggestion)

/-- The function `parseSuggestions`; the outer `none` is a run-time failure. -/
def parseSuggestions (unmarshal : Bytes → Option (List Suggestion)) (response : Bytes) :
    Option (Except String (List Suggestion)) :=
  match extractJSON response with
  | none => none
  | some response =>
    match unmarshal response with
    | none => some (.error "failed to parse suggestions")
    | some suggestions =>
      if suggestions.length = 0 then some (.error "no suggestions in response")
      else some (.ok suggestions)

/-- The function `GenerateSuggestions`; the outer `none` is a run-time
failure. -/
def GenerateSuggestions (env : Env) (req : SuggestionRequest) :
    Option (Except String (List Suggestion)) :=
  if env.apiKey = "" then some (.error "LLM API key not configured")
  else
    match buildPrompt req with
    | none => none
    | some prompt =>
      match env.call prompt with
      | .error err => some (.error err)
      | .ok response =>
        match parseSuggestions env.unmarshal response with
        | none => none
        | some (.error err) => some (.error err)
        | some (.ok suggestions) => some (.ok suggestions)

/-- The list `getAISuggestions` answers with (lines 122 to 140 of
`api/ai.go`), for the request it has assembled: the list of
`GenerateSuggestions`, or the fallback list when that returns an error. -/
def getAISuggestions (env : Env) (req : SuggestionRequest) : Option (List Suggestion) :=
  match GenerateSuggestions env req with
  | none => none
  | some (.error _) =>
    some (getFallbackSuggestions req.UserFlirtStyle req.Stage req.OtherUserNickname)
  | some (.ok suggestions) => some suggestions

/-- A history of six turns, oldest first. -/
def exampleHistory : List HistoryEntry :=
  [{ isSelf := some true, content := some (utf8 "m1") },
   { isSelf := some false, content := some (utf8 "m2") },
   { isSelf := some true, content := some (utf8 "m3") },
   { isSelf := some false, content := some (utf8 "m4") },
   { isSelf := some true, content := some (utf8 "m5") },
   { isSelf := some false, content := some (utf8 "m6") }]

/-- A request for a user of style `humorous` with no history and no traits. -/
def exampleRequest : SuggestionRequest :=
  { OtherUserGender := none, OtherUserNickname := utf8 "Lin", Stage := 1,
    UserFlirtStyle := "humorous", ChatHistory := [], TargetTraits := Map.empty }

/-- An answer of the model with one suggestion. -/
def exampleAnswer : Bytes :=
  utf8 "\x7b\"suggestions\": [\x7b\"text\": \"hi\", \"style\": \"s\", \"reason\": \"r\"\x7d]\x7d"

/-- An environment with a key, whose model answers `exampleAnswer` and whose
decoder reads that answer as `json.Unmarshal` does, into a list of one
suggestion. -/
def exampleEnv : Env :=
  { apiKey := "key"
    call := fun _ => .ok exampleAnswer
    unmarshal := fun text =>
      if text = exampleAnswer then some [{ Text := "hi", Style := "s", Reason := "r" }]
      else none }

end Suggest

namespace Memory

/-! ## Stage transitions -/

/-- One call of `calculateStage` keeps the stage or raises it by one. -/
theorem calculateStage_eq_or_succ (s : Int) (content : Bytes) (traits : Map) :
    calculateStage s content traits = s ∨ calculateStage s content traits = s + 1 := by
  unfold calculateStage FlirtStageColdStart FlirtStageBreakingIce FlirtStageWarmUp
    FlirtStageFlirty FlirtStageDeep
  dsimp only
  split_ifs <;> first | (left; rfl) | (right; omega)

/-- The stage stored by `UpdateContext` is the result of `calculateStage` on
the stored stage and the stored traits. -/
theorem UpdateContext_Stage (m : MemoryContext) (content : Bytes) :
    (UpdateContext m content).Stage = calculateStage m.Stage content m.TargetTraits := rfl

/-- Along any run of updates, consecutive stages differ by zero or one. -/
theorem stageTrace_chain (contents : List Bytes) :
    ∀ m : MemoryContext, List.Chain' (fun a b : Int => a ≤ b ∧ b ≤ a + 1) (stageTrace m contents) := by
  induction contents with
  | nil => intro m; simp [stageTrace]
  | cons c rest ih =>
    intro m
    have h := ih (UpdateContext m c)
    cases rest with
    | nil =>
      simp only [stageTrace, List.chain'_cons, List.chain'_singleton, and_true]
      rw [UpdateContext_Stage]
      rcases calculateStage_eq_or_succ m.Stage c m.TargetTraits with h' | h' <;> omega
    | cons c' rest' =>
      simp only [stageTrace, List.chain'_cons] at h ⊢
      refine ⟨?_, h⟩
      rw [UpdateContext_Stage]
      rcases calculateStage_eq_or_succ m.Stage c m.TargetTraits with h' | h' <;> omega

/-- C1: for every current stage, content and trait map `calculateStage`
returns the stage it was given or that stage plus one; hence along every
sequence of memory updates, from any stored context and so from a context at
`ColdStart`, each stage is at least the one before it and at most one more. -/
theorem stage_advances_by_at_most_one :
    (∀ (s : Int) (content : Bytes) (traits : Map),
      calculateStage s content traits = s ∨ calculateStage s content traits = s + 1) ∧
    (∀ (m : MemoryContext) (contents : List Bytes),
      List.Chain' (fun a b : Int => a ≤ b ∧ b ≤ a + 1) (stageTrace m contents)) :=
  ⟨calculateStage_eq_or_succ, fun m contents => stageTrace_chain contents m⟩

/-- C2 (evaluation of the code): `UpdateContext` passes the trait map, not the
pattern counters, to `calculateStage`.  With no `message_count` among the
traits the stage stays at `BreakingIce` whatever the pattern counter `n` is
(also for `n ≥ 5`), and with `message_count = 5` among the traits the stage
becomes `WarmUp` although the pattern counter is `0`. -/
theorem breakingIce_ignores_pattern_counter :
    (∀ (n : Int) (content : Bytes),
      (UpdateContext ⟨FlirtStageBreakingIce, Map.empty,
        Map.empty.set "message_count" (.num n)⟩ content).Stage = FlirtStageBreakingIce) ∧
    (∀ content : Bytes,
      (UpdateContext ⟨FlirtStageBreakingIce, Map.empty.set "message_count" (.num 5),
        Map.empty.set "message_count" (.num 0)⟩ content).Stage = FlirtStageWarmUp) := by
  constructor
  · intro n content
    simp [UpdateContext, calculateStage, Map.empty, FlirtStageColdStart, FlirtStageBreakingIce]
  · intro content
    simp [UpdateContext, calculateStage, Map.empty, Map.set, FlirtStageColdStart,
      FlirtStageBreakingIce, FlirtStageWarmUp]

/-- C3: the first update of a newly created context, with any content, stores
stage `BreakingIce` and `message_count = 1`. -/
theorem first_update_breaks_ice (content : Bytes) :
    (UpdateContext newContext content).Stage = FlirtStageBreakingIce ∧
    (UpdateContext newContext content).SuccessfulPatterns "message_count" = some (.num 1) := by
  constructor
  · simp [UpdateContext, newContext, calculateStage, Map.empty, FlirtStageColdStart,
      FlirtStageBreakingIce]
  · simp only [UpdateContext, newContext, updatePatterns, Map.stored]
    split_ifs <;> simp [Map.set, Map.empty, jsonRoundTrip]

/-- C4 (evaluation of the code): at stage `WarmUp`, with `message_count = 10`
both among the traits and among the pattern counters, the content "我喜欢你"
has the affection keyword as a substring, yet the update leaves the stage at
`WarmUp`: `contains` only compares the start of the content. -/
theorem warmUp_keyword_inside_content_ignored :
    utf8 "喜欢" <:+: utf8 "我喜欢你" ∧
    (UpdateContext
      ⟨FlirtStageWarmUp,
        (Map.empty.set "message_count" (.num 10)).set "sentiment" (.str "neutral"),
        Map.empty.set "message_count" (.num 10)⟩
      (utf8 "我喜欢你")).Stage = FlirtStageWarmUp := by
  constructor
  · exact ⟨utf8 "我", utf8 "你", by decide⟩
  · decide

/-- C5 (evaluation of the code): at stage `Flirty`, with `message_count = 20`
both among the traits and among the pattern counters, the content "我想你"
has the keyword "想" as a substring, yet the update leaves the stage at
`Flirty`. -/
theorem flirty_keyword_inside_content_ignored :
    utf8 "想" <:+: utf8 "我想你" ∧
    (UpdateContext
      ⟨FlirtStageFlirty, Map.empty.set "message_count" (.num 20),
        Map.empty.set "message_count" (.num 20)⟩
      (utf8 "我想你")).Stage = FlirtStageFlirty := by
  constructor
  · exact ⟨utf8 "我", utf8 "你", by decide⟩
  · decide

/-- C6: from a stage in `0..4`, `calculateStage` returns a stage in `0..4`,
and from `Deep` it returns `Deep`. -/
theorem calculateStage_stays_in_range (s : Int) (content : Bytes) (traits : Map)
    (h0 : 0 ≤ s) (h4 : s ≤ 4) :
    (0 ≤ calculateStage s content traits ∧ calculateStage s content traits ≤ 4) ∧
    calculateStage FlirtStageDeep content traits = FlirtStageDeep := by
  refine ⟨?_, ?_⟩
  · have hs : calculateStage 4 content traits = 4 := by
      simp [calculateStage, FlirtStageColdStart, FlirtStageBreakingIce, FlirtStageWarmUp,
        FlirtStageFlirty]
    rcases calculateStage_eq_or_succ s content traits with h | h
    · omega
    · by_cases h' : s = 4
      · subst h'; omega
      · omega
  · simp [calculateStage, FlirtStageColdStart, FlirtStageBreakingIce, FlirtStageWarmUp,
      FlirtStageFlirty, FlirtStageDeep]

/-- C6, at stage `Flirty` with twenty messages and the content "爱". -/
theorem calculateStage_stays_in_range_witness :
    (0 ≤ calculateStage 3 (utf8 "爱") (Map.empty.set "message_count" (.num 20)) ∧
      calculateStage 3 (utf8 "爱") (Map.empty.set "message_count" (.num 20)) ≤ 4) ∧
    calculateStage FlirtStageDeep (utf8 "爱") (Map.empty.set "message_count" (.num 20))
      = FlirtStageDeep :=
  calculateStage_stays_in_range 3 (utf8 "爱") (Map.empty.set "message_count" (.num 20))
    (by decide) (by decide)

/-- C7 (evaluation of the code): the content "我喜欢摄影和旅行" has the
interest keywords "摄影" and "旅行" as substrings, yet `extractTraits` returns
no `interests` entry at all. -/
theorem extractTraits_misses_inner_keywords :
    utf8 "摄影" <:+: utf8 "我喜欢摄影和旅行" ∧
    utf8 "旅行" <:+: utf8 "我喜欢摄影和旅行" ∧
    extractTraits (utf8 "我喜欢摄影和旅行") "interests" = none := by
  refine ⟨⟨utf8 "我喜欢", utf8 "和旅行", by decide⟩, ⟨utf8 "我喜欢摄影和", [], by decide⟩, ?_⟩
  decide

/-! ## Merging trait lists -/

theorem mem_firstSeen (l : List String) (a : String) : a ∈ firstSeen l ↔ a ∈ l := by
  induction l with
  | nil => simp [firstSeen]
  | cons x xs ih =>
    simp only [firstSeen, List.mem_cons, List.mem_filter, ih, decide_eq_true_eq]
    constructor
    · rintro (h | ⟨h, -⟩)
      · exact Or.inl h
      · exact Or.inr h
    · intro h
      by_cases hx : a = x
      · exact Or.inl hx
      · rcases h with h | h
        · exact absurd h hx
        · exact Or.inr ⟨h, hx⟩

theorem nodup_firstSeen (l : List String) : (firstSeen l).Nodup := by
  induction l with
  | nil => simp [firstSeen]
  | cons x xs ih =>
    simp only [firstSeen, List.nodup_cons, List.mem_filter, decide_eq_true_eq]
    exact ⟨fun h => h.2 rfl, ih.filter _⟩

theorem nodup_unionFirstSeen (xs ys : List String) : (unionFirstSeen xs ys).Nodup := by
  unfold unionFirstSeen
  refine List.Nodup.append (nodup_firstSeen xs) ((nodup_firstSeen ys).filter _) ?_
  intro a ha hb
  rw [mem_firstSeen] at ha
  simp only [List.mem_filter, decide_eq_true_eq] at hb
  exact hb.2 ha

/-- The second loop of `mergeStringLists`, from any state of `seen` and
`result`. -/
theorem foldl_addNew (l : List String) :
    ∀ (seen : List String) (res : List Item),
      (l.foldl addNew (seen, res)).2
        = res ++ ((firstSeen l).filter (fun y => decide (y ∉ seen))).map Item.str := by
  induction l with
  | nil => intro seen res; simp [firstSeen]
  | cons x xs ih =>
    intro seen res
    simp only [List.foldl_cons, firstSeen, addNew]
    by_cases hx : x ∈ seen
    · rw [if_pos hx, ih, List.filter_cons_of_neg (by simpa using hx), List.filter_filter]
      congr 2
      apply List.filter_congr
      intro a _
      by_cases ha : a ∈ seen
      · simp [ha]
      · have : a ≠ x := fun h => ha (h ▸ hx)
        simp [ha, this]
    · rw [if_neg hx, ih, List.filter_cons_of_pos (by simpa using hx), List.filter_filter,
        List.map_cons, List.append_assoc, List.singleton_append]
      congr 3
      apply List.filter_congr
      intro a _
      by_cases ha : a = x <;> simp [ha, hx]

/-- The first loop of `mergeStringLists`: it leaves in `seen` the strings of
the existing items and in `result` their first occurrences. -/
theorem foldl_addExisting (l : List Item) :
    ∀ (seen : List String) (res : List Item),
      (l.foldl addExisting (seen, res)).2
          = res ++ ((firstSeen (itemStrings l)).filter (fun y => decide (y ∉ seen))).map Item.str
        ∧ ∀ a, a ∈ (l.foldl addExisting (seen, res)).1 ↔ a ∈ seen ∨ a ∈ itemStrings l := by
  induction l with
  | nil => intro seen res; simp [firstSeen, itemStrings]
  | cons it rest ih =>
    intro seen res
    cases it with
    | other t =>
      simp only [List.foldl_cons, itemStrings, addExisting]
      exact ih seen res
    | str x =>
      simp only [List.foldl_cons, itemStrings, firstSeen, addExisting]
      by_cases hx : x ∈ seen
      · rw [if_pos hx]
        obtain ⟨h1, h2⟩ := ih seen res
        refine ⟨?_, ?_⟩
        · rw [h1, List.filter_cons_of_neg (by simpa using hx), List.filter_filter]
          congr 2
          apply List.filter_congr
          intro a _
          by_cases ha : a ∈ seen
          · simp [ha]
          · have : a ≠ x := fun h => ha (h ▸ hx)
            simp [ha, this]
        · intro a
          rw [h2 a, List.mem_cons]
          constructor
          · rintro (h | h)
            · exact Or.inl h
            · exact Or.inr (Or.inr h)
          · rintro (h | h | h)
            · exact Or.inl h
            · exact Or.inl (h ▸ hx)
            · exact Or.inr h
      · rw [if_neg hx]
        obtain ⟨h1, h2⟩ := ih (x :: seen) (res ++ [Item.str x])
        refine ⟨?_, ?_⟩
        · rw [h1, List.filter_cons_of_pos (by simpa using hx), List.filter_filter,
            List.map_cons, List.append_assoc, List.singleton_append]
          congr 3
          apply List.filter_congr
          intro a _
          by_cases ha : a = x <;> simp [ha, hx]
        · intro a
          rw [h2 a, List.mem_cons, List.mem_cons]
          tauto

/-- The list `mergeStringLists` returns, for any existing items. -/
theorem mergeStringLists_eq (existing : List Item) (new : List String) :
    mergeStringLists existing new
      = (unionFirstSeen (itemStrings existing) new).map Item.str := by
  unfold mergeStringLists unionFirstSeen
  obtain ⟨h1, h2⟩ := foldl_addExisting existing [] []
  generalize List.foldl addExisting ([], []) existing = st at h1 h2
  obtain ⟨seen, res⟩ := st
  simp only at h1 h2
  simp only []
  rw [foldl_addNew, h1]
  simp only [List.nil_append, List.map_append, List.not_mem_nil, not_false_eq_true, decide_True,
    List.filter_true]
  congr 2
  apply List.filter_congr
  intro a _
  simp [h2 a]

theorem itemStrings_map_str (xs : List String) : itemStrings (xs.map Item.str) = xs := by
  induction xs with
  | nil => rfl
  | cons x xs ih => simp [itemStrings, ih]

/-- C8 (counterexample): the existing map holds the interest `music` as a
`[]string`, which is how `extractTraits` builds a list and how `mergeTraits`
itself returns one that it took over from the new map.  Merging the new
interest `travel` into it replaces the list: `music` is lost, where the union
in first-seen order is `music`, `travel`. -/
theorem mergeTraits_replaces_string_slice :
    mergeTraits (Map.empty.set "interests" (.strList ["music"]))
        (Map.empty.set "interests" (.strList ["travel"])) "interests"
      = some (.strList ["travel"]) ∧
    mergeTraits
        (mergeTraits Map.empty (Map.empty.set "interests" (.strList ["music"])))
        (Map.empty.set "interests" (.strList ["travel"])) "interests"
      = some (.strList ["travel"]) ∧
    unionFirstSeen ["music"] ["travel"] = ["music", "travel"] := by
  refine ⟨?_, ?_, ?_⟩
  · decide
  · decide
  · decide

/-- C8 (amended): when the existing map holds under `interests` (or `topics`)
a `[]interface{}` of strings, which is what the stored JSON is read back as,
and the new map carries a `[]string` for that key, `mergeTraits` yields the
existing items in first-seen order followed by the new items not already
present, without duplicates.  When the existing value under that key is not
a `[]interface{}` (it is absent, a `[]string`, or anything else), the value
of the new map replaces it.  Every other key takes the new value when the
new map has it and keeps the existing one otherwise. -/
theorem mergeTraits_unions_lists_overwrites_rest (existing new : Map) :
    (∀ (k : String) (xs ys : List String), k = "interests" ∨ k = "topics" →
      existing k = some (.ifaceList (xs.map Item.str)) → new k = some (.strList ys) →
      mergeTraits existing new k = some (.ifaceList ((unionFirstSeen xs ys).map Item.str)) ∧
        (unionFirstSeen xs ys).Nodup ∧
        unionFirstSeen xs ys
          = firstSeen xs ++ (firstSeen ys).filter (fun y => decide (y ∉ xs))) ∧
    (∀ (k : String) (v : Value), k = "interests" ∨ k = "topics" →
      (∀ l : List Item, existing k ≠ some (.ifaceList l)) → new k = some v →
      mergeTraits existing new k = some v) ∧
    (∀ k : String, k ≠ "interests" → k ≠ "topics" →
      mergeTraits existing new k = (match new k with
        | some v => some v
        | none => existing k)) := by
  refine ⟨?_, ?_, ?_⟩
  · intro k xs ys hk he hn
    refine ⟨?_, nodup_unionFirstSeen xs ys, rfl⟩
    rcases hk with hk | hk <;> subst hk
    · simp only [mergeTraits, hn, he, if_true, mergeStringLists_eq, itemStrings_map_str]
    · have hne : ¬ ("topics" = "interests") := by decide
      simp only [mergeTraits, hn, he, if_true, if_neg hne, mergeStringLists_eq,
        itemStrings_map_str]
  · intro k v hk he hn
    have hne : ¬ ("topics" = "interests") := by decide
    rcases hk with hk | hk <;> subst hk
    · simp only [mergeTraits, hn, if_true]
    · simp only [mergeTraits, hn, if_true, if_neg hne]
  · intro k h1 h2
    simp only [mergeTraits]
    cases new k with
    | none => rfl
    | some v => simp [h1, h2]

/-- C8 (amended), on stored interests music, travel, music and new interests
travel, food, food. -/
theorem mergeTraits_unions_lists_overwrites_rest_witness :
    mergeTraits
        ((Map.empty.set "interests" (.ifaceList [.str "music", .str "travel", .str "music"])).set
          "tone" (.str "neutral"))
        ((Map.empty.set "interests" (.strList ["travel", "food", "food"])).set
          "tone" (.str "positive"))
        "interests"
      = some (.ifaceList [.str "music", .str "travel", .str "food"]) :=
  ((mergeTraits_unions_lists_overwrites_rest
      ((Map.empty.set "interests" (.ifaceList [.str "music", .str "travel", .str "music"])).set
        "tone" (.str "neutral"))
      ((Map.empty.set "interests" (.strList ["travel", "food", "food"])).set
        "tone" (.str "positive"))).1
    "interests" ["music", "travel", "music"] ["travel", "food", "food"] (Or.inl rfl)
    (by decide) (by decide)).1

/-- C9: merging an empty map of new traits returns the existing map, key for
key, and so does merging it again. -/
theorem mergeTraits_empty_new (existing : Map) :
    mergeTraits existing Map.empty = existing ∧
    mergeTraits (mergeTraits existing Map.empty) Map.empty = existing := by
  have h : ∀ m : Map, mergeTraits m Map.empty = m := by
    intro m
    funext k
    simp [mergeTraits, Map.empty]
  exact ⟨h existing, by rw [h, h]⟩

/-! ## Pattern counters -/

/-- What `updatePatterns` does to each key: `message_count` goes up by one
(to `1` when it held no number), the counter of the message type goes up by
one (to `1` when it held no number), every other key is kept. -/
theorem updatePatterns_apply (existing : Map) (content : Bytes) (k : String) :
    updatePatterns existing content k =
      if k = messageType content then
        (match existing k with
          | some (.num typeCount) => some (.num (typeCount + 1))
          | _ => some (.num 1))
      else if k = "message_count" then
        (match existing k with
          | some (.num count) => some (.num (count + 1))
          | _ => some (.num 1))
      else existing k := by
  have ht : messageType content ≠ "message_count" := by
    unfold messageType
    split_ifs <;> decide
  have e : (if contains (lowercase content) (utf8 "?") || contains (lowercase content) (utf8 "吗")
      then "question" else "statement") = messageType content := rfl
  unfold updatePatterns
  simp only [e]
  generalize messageType content = t at ht
  have hset : ∀ v, (existing.set "message_count" v) t = existing t := by
    intro v
    simp [Map.set, ht]
  rw [hset]
  have hcount : some (Value.num (match existing "message_count" with
      | some (.num count) => count + 1
      | _ => 1))
      = (match existing "message_count" with
        | some (.num count) => some (Value.num (count + 1))
        | _ => some (Value.num 1)) := by
    rcases existing "message_count" with _ | v
    · rfl
    · cases v <;> rfl
  by_cases hk : k = t
  · subst hk
    rcases h : existing k with _ | v
    · simp [Map.set]
    · cases v <;> simp [Map.set]
  · rw [if_neg hk]
    by_cases hm : k = "message_count"
    · subst hm
      rw [if_pos rfl, ← hcount]
      rcases h : existing t with _ | v
      · simp [Map.set, hk]
      · cases v <;> simp [Map.set, hk]
    · rw [if_neg hm]
      rcases h : existing t with _ | v
      · simp [Map.set, hk, hm]
      · cases v <;> simp [Map.set, hk, hm]

/-- C10 (evaluation of the code): the contents "你好吗" and "ok?" have a
question word, resp. a question mark, as a substring, yet `updatePatterns`
counts each as a statement and leaves the `question` counter absent. -/
theorem updatePatterns_misses_inner_question_marker :
    (utf8 "吗" <:+: utf8 "你好吗" ∧
      updatePatterns Map.empty (utf8 "你好吗") "question" = none ∧
      updatePatterns Map.empty (utf8 "你好吗") "statement" = some (.num 1)) ∧
    (utf8 "?" <:+: utf8 "ok?" ∧
      updatePatterns Map.empty (utf8 "ok?") "question" = none ∧
      updatePatterns Map.empty (utf8 "ok?") "statement" = some (.num 1)) := by
  refine ⟨⟨⟨utf8 "你好", [], by decide⟩, by decide, by decide⟩,
    ⟨⟨utf8 "ok", [], by decide⟩, by decide, by decide⟩⟩

/-! ## Run-time checks -/

/-- A loop whose body never fails does not fail. -/
theorem foldlM_eq_some_foldl {α β : Type} (f : β → α → Option β) (g : β → α → β)
    (h : ∀ b a, f b a = some (g b a)) (l : List α) :
    ∀ init : β, l.foldlM f init = some (l.foldl g init) := by
  induction l with
  | nil => intro init; rfl
  | cons a rest ih =>
    intro init
    simp only [List.foldlM_cons, List.foldl_cons, h, Option.bind_eq_bind, Option.some_bind, ih]

theorem lowercaseChecked_upto (s : Bytes) :
    ∀ n, n ≤ s.length →
      (List.range n).foldlM
        (fun result i => do
          let c ← indexAt s i
          let c := if 65 ≤ c ∧ c ≤ 90 then c + 32 else c
          assignAt result i c)
        (List.replicate s.length 0)
        = some ((lowercase s).take n ++ List.replicate (s.length - n) 0) := by
  intro n
  induction n with
  | zero => intro _; simp [pure]
  | succ n ih =>
    intro hn
    have hlt : n < s.length := hn
    rw [List.range_succ, List.foldlM_append, ih (Nat.le_of_lt hlt)]
    have hlen : ((lowercase s).take n).length = n := by
      simp [lowercase, Nat.le_of_lt hlt]
    have hrep : List.replicate (s.length - n) 0 = 0 :: List.replicate (s.length - (n + 1)) 0 := by
      have : s.length - n = (s.length - (n + 1)) + 1 := by omega
      rw [this, List.replicate_succ]
    have htake : (lowercase s).take (n + 1)
        = (lowercase s).take n ++ [if 65 ≤ s[n] ∧ s[n] ≤ 90 then s[n] + 32 else s[n]] := by
      have hl : n < (lowercase s).length := by simp [lowercase, hlt]
      rw [List.take_succ, List.getElem?_eq_getElem hl]
      simp [lowercase]
    simp only [Option.bind_eq_bind, Option.some_bind, List.foldlM_cons, List.foldlM_nil, indexAt,
      List.getElem?_eq_getElem hlt, assignAt, List.length_append, hlen, List.length_replicate]
    have h2 : n < n + (s.length - n) := by omega
    rw [if_pos h2, htake, hrep]
    simp only [pure, Option.some_bind]
    congr 1
    rw [List.set_append_right _ _ (by omega), hlen, Nat.sub_self, List.set_cons_zero,
      List.append_assoc, List.singleton_append]

/-- The loop of `lowercase` stays within its two buffers, and computes the
byte-wise lower-casing. -/
theorem lowercaseChecked_eq (s : Bytes) : lowercaseChecked s = some (lowercase s) := by
  unfold lowercaseChecked
  rw [lowercaseChecked_upto s s.length (Nat.le_refl _)]
  have : (lowercase s).length = s.length := by simp [lowercase]
  simp [← this]

/-- The slice of `contains` is never out of range. -/
theorem containsChecked_eq (s substr : Bytes) :
    containsChecked s substr = some (contains s substr) := by
  unfold containsChecked contains sliceTo
  by_cases h : s.length ≥ substr.length
  · have h' : substr.length ≤ s.length := h
    simp [h', pure]
  · simp [h, pure]

theorem countKeywordsChecked_eq (s : Bytes) (keywords : List Bytes) :
    countKeywordsChecked s keywords = some (countKeywords s keywords) := by
  unfold countKeywordsChecked countKeywords
  simp only [lowercaseChecked_eq, Option.bind_eq_bind, Option.some_bind]
  exact foldlM_eq_some_foldl _ _
    (fun b a => by simp [lowercaseChecked_eq, containsChecked_eq, pure]) keywords 0

theorem detectToneChecked_eq (content : Bytes) :
    detectToneChecked content = some (detectTone content) := by
  simp [detectToneChecked, detectTone, countKeywordsChecked_eq, pure]

theorem detectSentimentChecked_eq (content : Bytes) :
    detectSentimentChecked content = some (detectSentiment content) := by
  simp [detectSentimentChecked, detectSentiment, countKeywordsChecked_eq, pure]

theorem matchKeywordsChecked_eq (contentLower : Bytes) (table : List (String × String)) :
    matchKeywordsChecked contentLower table = some (matchKeywords contentLower table) := by
  unfold matchKeywordsChecked matchKeywords
  exact foldlM_eq_some_foldl _ _
    (fun b a => by simp [lowercaseChecked_eq, containsChecked_eq, pure]) table []

theorem extractTraitsChecked_eq (content : Bytes) :
    extractTraitsChecked content = some (extractTraits content) := by
  simp only [extractTraitsChecked, extractTraits, lowercaseChecked_eq, matchKeywordsChecked_eq,
    detectToneChecked_eq, detectSentimentChecked_eq, Option.bind_eq_bind, Option.some_bind, pure]

theorem anyKeywordChecked_eq (content : Bytes) (keywords : List Bytes) :
    anyKeywordChecked content keywords
      = some (keywords.any (fun kw => contains (lowercase content) (lowercase kw))) := by
  induction keywords with
  | nil => rfl
  | cons kw rest ih =>
    simp only [anyKeywordChecked, lowercaseChecked_eq, containsChecked_eq, Option.bind_eq_bind,
      Option.some_bind, List.any_cons, ih]
    cases contains (lowercase content) (lowercase kw) <;> simp [pure]

theorem calculateStageChecked_eq (currentStage : Int) (content : Bytes) (traits : Map) :
    calculateStageChecked currentStage content traits
      = some (calculateStage currentStage content traits) := by
  unfold calculateStageChecked calculateStage
  simp only [lowercaseChecked_eq, containsChecked_eq, anyKeywordChecked_eq, Option.bind_eq_bind,
    Option.some_bind, pure]
  split_ifs <;> simp_all

theorem updatePatternsChecked_eq (existing : Map) (content : Bytes) :
    updatePatternsChecked existing content = some (updatePatterns existing content) := by
  unfold updatePatternsChecked updatePatterns
  simp only [lowercaseChecked_eq, containsChecked_eq, Option.bind_eq_bind, Option.some_bind, pure]
  cases h1 : contains (lowercase content) (utf8 "?") <;>
    cases h2 : contains (lowercase content) (utf8 "吗") <;>
    simp only [Bool.false_eq_true, if_false, if_true, Option.some_bind, Bool.or_false,
      Bool.or_true, Bool.or_self] <;>
    split <;> simp_all

/-! ## Contents without a keyword -/

theorem lowercase_lowercase (s : Bytes) : lowercase (lowercase s) = lowercase s := by
  unfold lowercase
  rw [List.map_map]
  apply List.map_congr_left
  intro c _
  simp only [Function.comp]
  split_ifs <;> omega

/-- Lower-casing leaves a byte string without ASCII letters as it is, and a
string whose lower-casing has no ASCII byte was that string already. -/
theorem eq_of_lowercase_eq (l k : Bytes) (hk : ∀ b ∈ k, 128 ≤ b) (h : lowercase l = k) :
    l = k := by
  induction l generalizing k with
  | nil => simpa [lowercase] using h
  | cons c rest ih =>
    cases k with
    | nil => simp [lowercase] at h
    | cons b k' =>
      simp only [lowercase, List.map_cons, List.cons.injEq] at h
      have hb : 128 ≤ b := hk b (List.mem_cons_self _ _)
      have hc : c = b := by
        rcases h with ⟨h1, -⟩
        split_ifs at h1 <;> omega
      rw [hc, ih k' (fun x hx => hk x (List.mem_cons_of_mem _ hx)) h.2]

/-- A keyword without ASCII bytes that does not occur in the content is not
found by `contains` in the lower-cased content. -/
theorem contains_lowercase_eq_false (content kw : Bytes) (hk : ∀ b ∈ kw, 128 ≤ b)
    (h : ¬ kw <:+: content) : contains (lowercase content) kw = false := by
  by_contra hc
  simp only [Bool.not_eq_false] at hc
  simp only [contains, Bool.and_eq_true, decide_eq_true_eq, beq_iff_eq] at hc
  have h1 : lowercase (content.take kw.length) = kw := by
    rw [← hc.2]
    simp [lowercase, List.map_take]
  have h2 := eq_of_lowercase_eq _ _ hk h1
  exact h ((List.IsPrefix.isInfix (h2 ▸ List.take_prefix _ _)))

theorem allKeywords_high_bytes : ∀ s ∈ allKeywords, ∀ b ∈ utf8 s, 128 ≤ b := by decide

theorem allKeywords_lowercase : ∀ s ∈ allKeywords, lowercase (utf8 s) = utf8 s := by decide

theorem countKeywords_eq_zero (s : Bytes) (keywords : List Bytes)
    (h : ∀ kw ∈ keywords, contains (lowercase s) (lowercase kw) = false) :
    countKeywords s keywords = 0 := by
  unfold countKeywords
  simp only
  induction keywords with
  | nil => rfl
  | cons kw rest ih =>
    rw [List.foldl_cons, h kw (List.mem_cons_self _ _)]
    exact ih (fun k hk => h k (List.mem_cons_of_mem _ hk))

theorem matchKeywords_eq_nil (contentLower : Bytes) (table : List (String × String))
    (h : ∀ kv ∈ table, contains contentLower (lowercase (utf8 kv.1)) = false) :
    matchKeywords contentLower table = [] := by
  unfold matchKeywords
  induction table with
  | nil => rfl
  | cons kv rest ih =>
    rw [List.foldl_cons, h kv (List.mem_cons_self _ _)]
    exact ih (fun k hk => h k (List.mem_cons_of_mem _ hk))

/-- When no keyword occurs in the content, `extractTraits` returns the map
with `tone` and `sentiment` both `neutral` and nothing else. -/
theorem extractTraits_no_keyword (content : Bytes)
    (h : ∀ s ∈ allKeywords, ¬ utf8 s <:+: content) :
    extractTraits content
      = (Map.empty.set "tone" (.str "neutral")).set "sentiment" (.str "neutral") := by
  have H : ∀ s ∈ allKeywords,
      contains (lowercase (lowercase content)) (lowercase (utf8 s)) = false := by
    intro s hs
    rw [lowercase_lowercase, allKeywords_lowercase s hs]
    exact contains_lowercase_eq_false content (utf8 s) (allKeywords_high_bytes s hs) (h s hs)
  have H' : ∀ s ∈ allKeywords, contains (lowercase content) (lowercase (utf8 s)) = false := by
    intro s hs
    rw [allKeywords_lowercase s hs]
    exact contains_lowercase_eq_false content (utf8 s) (allKeywords_high_bytes s hs) (h s hs)
  have hcount : ∀ l : List String, (∀ s ∈ l, s ∈ allKeywords) →
      countKeywords (lowercase content) (l.map utf8) = 0 := by
    intro l hl
    apply countKeywords_eq_zero
    intro kw hkw
    obtain ⟨s, hs, rfl⟩ := List.mem_map.1 hkw
    exact H s (hl s hs)
  have hi : matchKeywords (lowercase content) interestKeywords = [] := by
    apply matchKeywords_eq_nil
    intro kv hkv
    exact H' kv.1 (by revert kv; decide)
  have ht : matchKeywords (lowercase content) topicKeywords = [] := by
    apply matchKeywords_eq_nil
    intro kv hkv
    exact H' kv.1 (by revert kv; decide)
  have htone : detectTone (lowercase content) = "neutral" := by
    unfold detectTone
    simp only [hcount _ (by decide : ∀ s ∈ ["哈哈", "哈哈", "开心", "喜欢", "爱", "棒", "厉害"],
        s ∈ allKeywords),
      hcount _ (by decide : ∀ s ∈ ["难过", "伤心", "讨厌", "烦", "生气"], s ∈ allKeywords),
      hcount _ (by decide : ∀ s ∈ ["吗", "呢", "什么", "如何", "怎么"], s ∈ allKeywords)]
    rfl
  have hsent : detectSentiment (lowercase content) = "neutral" := by
    unfold detectSentiment
    simp only [hcount _ (by decide : ∀ s ∈ ["哈哈", "哈哈", "开心", "喜欢", "爱", "棒", "厉害", "好",
        "漂亮", "帅"], s ∈ allKeywords),
      hcount _ (by decide : ∀ s ∈ ["难过", "伤心", "讨厌", "烦", "生气", "不好", "糟糕"],
        s ∈ allKeywords)]
    rfl
  unfold extractTraits
  simp only [hi, ht, htone, hsent]
  rfl

/-- C11 (evaluation of the code): the content "你好吗" has the question
keyword "吗" as a substring and the content "我很开心" has the positive keyword
"开心" as a substring and no negative keyword, yet `detectTone` returns
`neutral` for both: `countKeywords` counts a keyword only at the start of the
content. -/
theorem detectTone_misses_inner_keywords :
    (utf8 "吗" <:+: utf8 "你好吗" ∧ detectTone (utf8 "你好吗") = "neutral") ∧
    (utf8 "开心" <:+: utf8 "我很开心" ∧ detectTone (utf8 "我很开心") = "neutral") := by
  refine ⟨⟨⟨utf8 "你好", [], by decide⟩, by decide⟩, ⟨⟨utf8 "我很", [], by decide⟩, by decide⟩⟩

/-- C12 (evaluation of the code): the content "我很开心" has the positive
keyword "开心" as a substring, yet `detectSentiment` returns `neutral`; the
content "不太好" has the positive keyword "好" as a substring, yet the result
is `neutral` as well. -/
theorem detectSentiment_misses_inner_keywords :
    (utf8 "开心" <:+: utf8 "我很开心" ∧ detectSentiment (utf8 "我很开心") = "neutral") ∧
    (utf8 "好" <:+: utf8 "不太好" ∧ detectSentiment (utf8 "不太好") = "neutral") := by
  refine ⟨⟨⟨utf8 "我很", [], by decide⟩, by decide⟩, ⟨⟨utf8 "不太", [], by decide⟩, by decide⟩⟩

/-- C13: for every byte string (every list of bytes: empty, shorter than a
keyword, not UTF-8), every stage and every pair of maps, `extractTraits`,
`calculateStage` and `updatePatterns` run through all their index, slice and
assertion checks and return the value of the model; and when no keyword
occurs in the content, `extractTraits` returns exactly `tone = neutral` and
`sentiment = neutral`, with no `interests` and no `topics` entry. -/
theorem memory_functions_never_fail (content : Bytes) (stage : Int) (traits patterns : Map) :
    extractTraitsChecked content = some (extractTraits content) ∧
    calculateStageChecked stage content traits = some (calculateStage stage content traits) ∧
    updatePatternsChecked patterns content = some (updatePatterns patterns content) ∧
    ((∀ s ∈ allKeywords, ¬ utf8 s <:+: content) →
      extractTraits content
          = (Map.empty.set "tone" (.str "neutral")).set "sentiment" (.str "neutral") ∧
        extractTraits content "tone" = some (.str "neutral") ∧
        extractTraits content "sentiment" = some (.str "neutral") ∧
        extractTraits content "interests" = none ∧
        extractTraits content "topics" = none) := by
  refine ⟨extractTraitsChecked_eq content, calculateStageChecked_eq stage content traits,
    updatePatternsChecked_eq patterns content, ?_⟩
  intro h
  have e := extractTraits_no_keyword content h
  refine ⟨e, ?_, ?_, ?_, ?_⟩ <;> rw [e] <;> decide

/-- C13, on the two bytes `0xFF 0x41`, which are not UTF-8 and shorter than
every keyword. -/
theorem memory_functions_never_fail_witness :
    extractTraitsChecked [255, 65] = some (extractTraits [255, 65]) ∧
    calculateStageChecked 3 [255, 65] (Map.empty.set "message_count" (.num 20))
      = some (calculateStage 3 [255, 65] (Map.empty.set "message_count" (.num 20))) ∧
    updatePatternsChecked Map.empty [255, 65] = some (updatePatterns Map.empty [255, 65]) ∧
    extractTraits [255, 65] "tone" = some (.str "neutral") ∧
    extractTraits [255, 65] "interests" = none :=
  have h := memory_functions_never_fail [255, 65] 3 (Map.empty.set "message_count" (.num 20))
    Map.empty
  ⟨h.1, h.2.1, h.2.2.1, (h.2.2.2 (by decide)).2.1, (h.2.2.2 (by decide)).2.2.2.1⟩

end Memory

namespace Relay

/-! ## Registry -/

theorem lookup_register_self (c : Connections) (userID : UUID) (conn : Handle) :
    lookup (register c userID conn) userID = some conn := by
  simp [lookup, register]

theorem lookup_register_other (c : Connections) (userID other : UUID) (conn : Handle)
    (h : other ≠ userID) : lookup (register c userID conn) other = lookup c other := by
  simp [lookup, register, h]

/-- In every reachable registry the stored connections were allocated
earlier, and no connection is stored under two users. -/
theorem Registry.run_invariant (events : List RegistryEvent) :
    (∀ u h, (Registry.run events).connections u = some h → h < (Registry.run events).nextHandle) ∧
    (∀ u v h, (Registry.run events).connections u = some h →
      (Registry.run events).connections v = some h → u = v) := by
  induction events using List.reverseRecOn with
  | nil =>
    constructor
    · intro u h hu; simp [Registry.run, Registry.init] at hu
    · intro u v h hu; simp [Registry.run, Registry.init] at hu
  | append_singleton es e ih =>
    obtain ⟨ih1, ih2⟩ := ih
    have hrun : Registry.run (es ++ [e]) = (Registry.run es).step e := by
      simp [Registry.run, List.foldl_append]
    rw [hrun]
    cases e with
    | upgrade userID =>
      constructor
      · intro u h hu
        simp only [Registry.step, register] at hu ⊢
        by_cases hx : u = userID
        · simp only [hx, if_true, Option.some.injEq] at hu
          exact hu ▸ Nat.lt_succ_self _
        · simp only [hx, if_false] at hu
          exact Nat.lt_succ_of_lt (ih1 u h hu)
      · intro u v h hu hv
        simp only [Registry.step, register] at hu hv
        by_cases hx : u = userID <;> by_cases hy : v = userID
        · rw [hx, hy]
        · simp only [hx, if_true, Option.some.injEq, hy, if_false] at hu hv
          exact absurd (hu ▸ ih1 v h hv) (Nat.lt_irrefl _)
        · simp only [hx, if_false, hy, if_true, Option.some.injEq] at hu hv
          exact absurd (hv ▸ ih1 u h hu) (Nat.lt_irrefl _)
        · simp only [hx, hy, if_false] at hu hv
          exact ih2 u v h hu hv
    | disconnect userID =>
      constructor
      · intro u h hu
        simp only [Registry.step, cleanup] at hu ⊢
        by_cases hx : u = userID
        · simp [hx] at hu
        · simp only [hx, if_false] at hu
          exact ih1 u h hu
      · intro u v h hu hv
        simp only [Registry.step, cleanup] at hu hv
        by_cases hx : u = userID
        · simp [hx] at hu
        · by_cases hy : v = userID
          · simp [hy] at hv
          · simp only [hx, hy, if_false] at hu hv
            exact ih2 u v h hu hv

/-- C14 (counterexample): user `7` connects twice, first on connection `0`,
then on connection `1`, which replaces it; `lookup` returns connection `1`.
When the cleanup of the stale connection `0` runs, the entry of user `7` is
gone: `lookup` returns nothing, not connection `1`. -/
theorem stale_cleanup_removes_replacement :
    lookup (Registry.run [.upgrade 7, .upgrade 7]).connections 7 = some 1 ∧
    lookup (Registry.run [.upgrade 7, .upgrade 7, .disconnect 7]).connections 7 = none := by
  decide

/-- C14 (amended): the cleanup of a connection of user `U` deletes the entry
of `U` whatever connection is stored there, and leaves the entry of every
other user as it was. -/
theorem cleanup_removes_whatever_is_stored (c : Connections) (userID : UUID) :
    lookup (cleanup c userID) userID = none ∧
    ∀ other : UUID, other ≠ userID → lookup (cleanup c userID) other = lookup c other := by
  constructor
  · simp [lookup, cleanup]
  · intro other h
    simp [lookup, cleanup, h]

/-- C15: in every reachable registry, when user `U` is registered with
connection `h1` and connects again, the new connection `h2` differs from `h1`
and takes its place: `lookup U` returns `h2`, `h1` is stored under no user any
more, and the entry of every other user is unchanged.  The registry is a map,
so a user has at most one entry, and no connection is stored under two
users. -/
theorem registration_replaces (events : List RegistryEvent) (userID : UUID) (h1 : Handle)
    (hreg : lookup (Registry.run events).connections userID = some h1) :
    lookup (Registry.run (events ++ [.upgrade userID])).connections userID
        = some (Registry.run events).nextHandle ∧
    (Registry.run events).nextHandle ≠ h1 ∧
    (∀ v : UUID, lookup (Registry.run (events ++ [.upgrade userID])).connections v ≠ some h1) ∧
    (∀ v : UUID, v ≠ userID →
      lookup (Registry.run (events ++ [.upgrade userID])).connections v
        = lookup (Registry.run events).connections v) ∧
    (∀ (u v : UUID) (h : Handle),
      lookup (Registry.run (events ++ [.upgrade userID])).connections u = some h →
      lookup (Registry.run (events ++ [.upgrade userID])).connections v = some h → u = v) := by
  obtain ⟨inv1, inv2⟩ := Registry.run_invariant events
  have hrun : Registry.run (events ++ [.upgrade userID])
      = (Registry.run events).step (.upgrade userID) := by
    simp [Registry.run, List.foldl_append]
  have hlt : h1 < (Registry.run events).nextHandle := inv1 userID h1 hreg
  refine ⟨?_, Nat.ne_of_gt hlt, ?_, ?_, ?_⟩
  · rw [hrun]; simp [Registry.step, lookup, register]
  · intro v hv
    rw [hrun] at hv
    simp only [Registry.step, lookup, register] at hv
    by_cases hx : v = userID
    · simp only [hx, if_true, Option.some.injEq] at hv
      exact Nat.lt_irrefl _ (hv ▸ hlt)
    · simp only [hx, if_false] at hv
      exact hx (inv2 v userID h1 hv hreg)
  · intro v hv
    rw [hrun]
    simp [Registry.step, lookup, register, hv]
  · intro u v h hu hv
    simp only [lookup] at hu hv
    exact (Registry.run_invariant (events ++ [.upgrade userID])).2 u v h hu hv

/-- C15, for user `7` connected on connection `0`, with user `9` connected on
connection `1`. -/
theorem registration_replaces_witness :
    lookup (Registry.run ([.upgrade 7, .upgrade 9] ++ [.upgrade 7])).connections 7 = some 2 ∧
    (∀ v : UUID, lookup (Registry.run ([.upgrade 7, .upgrade 9] ++ [.upgrade 7])).connections v
      ≠ some 0) ∧
    lookup (Registry.run ([.upgrade 7, .upgrade 9] ++ [.upgrade 7])).connections 9 = some 1 :=
  have h := registration_replaces [.upgrade 7, .upgrade 9] 7 0 (by decide)
  ⟨h.1, h.2.2.1, by rw [h.2.2.2.1 9 (by decide)]; decide⟩

/-! ## Message frames -/

/-- The counterpart query finds nothing for a user who is not a participant,
and for a conversation that does not exist. -/
theorem queryOtherUser_eq_none (w : World) (userID conversationID : UUID)
    (h : ∀ c, w.conversations conversationID = some c → c.User1ID ≠ userID ∧ c.User2ID ≠ userID) :
    queryOtherUser w userID conversationID = none := by
  unfold queryOtherUser
  cases hc : w.conversations conversationID with
  | none => rfl
  | some c =>
    obtain ⟨h1, h2⟩ := h c hc
    simp [h1, h2]

/-- The counterpart query returns the other participant. -/
theorem queryOtherUser_participant (w : World) (P Q conversationID : UUID) (c : ConversationRow)
    (hconv : w.conversations conversationID = some c)
    (hPQ : (c.User1ID = P ∧ c.User2ID = Q) ∨ (c.User1ID = Q ∧ c.User2ID = P)) (hne : P ≠ Q) :
    queryOtherUser w P conversationID = some Q := by
  unfold queryOtherUser
  rw [hconv]
  rcases hPQ with ⟨h1, h2⟩ | ⟨h1, h2⟩
  · simp [h1, h2]
  · have : ¬ Q = P := fun h => hne h.symm
    simp [h1, h2, this]

/-- C16: a message frame from a user who is not a participant of the
conversation it names, or that names a conversation that does not exist,
leaves the world as it was: no message is stored, no timestamp and no status
changes, no frame is written, and nothing is left to mark delivered. -/
theorem message_from_non_participant_dropped (w : World) (userID msgID : UUID)
    (frame : MessageFrame)
    (h : ∀ cid c, frame.conversationID = some cid → w.conversations cid = some c →
      c.User1ID ≠ userID ∧ c.User2ID ≠ userID) :
    handleWSMessageSend userID frame msgID w = w ∧
    pushMessage userID frame msgID w = (w, none) := by
  have hp : pushMessage userID frame msgID w = (w, none) := by
    unfold pushMessage
    cases hc : frame.conversationID with
    | none => rfl
    | some cid =>
      have hq := queryOtherUser_eq_none w userID cid (fun c hconv => h cid c hc hconv)
      cases hcontent : frame.content with
      | none => rfl
      | some content =>
        by_cases he : content = []
        · simp [he]
        · simp [he, hq]
  exact ⟨by simp [handleWSMessageSend, hp], hp⟩

/-- C16, for user `30`, who is no participant of conversation `1`. -/
theorem message_from_non_participant_dropped_witness :
    handleWSMessageSend 30 exampleMessageFrame 101 exampleWorld = exampleWorld :=
  (message_from_non_participant_dropped exampleWorld 30 101 exampleMessageFrame
    (by
      intro cid c h1 h2
      simp only [exampleMessageFrame, Option.some.injEq] at h1
      subst h1
      simp only [exampleWorld, if_true, Option.some.injEq] at h2
      subst h2
      decide)).1

/-- The world `pushMessage` leaves for a valid frame from participant `P`,
who is registered, with counterpart `Q` and an unused message id. -/
theorem pushMessage_participant (w : World) (P Q cid msgID : UUID) (hP : Handle)
    (frame : MessageFrame) (content : Memory.Bytes) (c : ConversationRow)
    (hc : frame.conversationID = some cid) (hcontent : frame.content = some content)
    (hne : content ≠ []) (hconv : w.conversations cid = some c)
    (hPQ : (c.User1ID = P ∧ c.User2ID = Q) ∨ (c.User1ID = Q ∧ c.User2ID = P)) (hdist : P ≠ Q)
    (hfresh : w.messages msgID = none) (hregP : w.connections P = some hP) :
    (pushMessage P frame msgID w).1.messages msgID
        = some { ConversationID := cid, SenderID := P, Content := content,
                 MessageType := frame.messageType.getD MessageTypeText,
                 Status := MessageStatusSent, CreatedAt := w.now } ∧
    (pushMessage P frame msgID w).1.written
        = w.written ++
          ((hP, WSFrame.message
              { ID := msgID, ConversationID := cid, SenderID := P, Content := content,
                MessageType := frame.messageType.getD MessageTypeText,
                Status := MessageStatusSent, CreatedAt := w.now }) ::
            (match w.connections Q with
              | some hQ =>
                [(hQ, WSFrame.message
                  { ID := msgID, ConversationID := cid, SenderID := P, Content := content,
                    MessageType := frame.messageType.getD MessageTypeText,
                    Status := MessageStatusSent, CreatedAt := w.now })]
              | none => [])) ∧
    (pushMessage P frame msgID w).2 = (w.connections Q).map (fun _ => msgID) := by
  have hq := queryOtherUser_participant w P Q cid c hconv hPQ hdist
  unfold pushMessage
  simp only [hc, hcontent, hne, if_false, hq, insertMessage, hfresh, touchConversation,
    selectMessage, if_true, hregP, writeJSON]
  cases hQ : w.connections Q <;> cases frame.messageType <;>
    simp [List.append_assoc]

/-- C17: for a valid message frame from participant `P`, who is registered,
with a distinct counterpart `Q` and an unused message id.  When `Q` is
registered, the frames written are exactly one `message` frame to the
connection of `P` and one to the connection of `Q`, both carrying the stored
message; its stored status is `sent` after the push and `delivered` when the
handler is done.  When `Q` is not registered, the only frame written is the
one to `P` and the stored status stays `sent`. -/
theorem message_relayed_and_delivered (w : World) (P Q cid msgID : UUID) (hP : Handle)
    (frame : MessageFrame) (content : Memory.Bytes) (c : ConversationRow)
    (hc : frame.conversationID = some cid) (hcontent : frame.content = some content)
    (hne : content ≠ []) (hconv : w.conversations cid = some c)
    (hPQ : (c.User1ID = P ∧ c.User2ID = Q) ∨ (c.User1ID = Q ∧ c.User2ID = P)) (hdist : P ≠ Q)
    (hfresh : w.messages msgID = none) (hregP : w.connections P = some hP) :
    (∀ hQ : Handle, w.connections Q = some hQ →
      (handleWSMessageSend P frame msgID w).written
          = w.written ++
            [(hP, WSFrame.message
                { ID := msgID, ConversationID := cid, SenderID := P, Content := content,
                  MessageType := frame.messageType.getD MessageTypeText,
                  Status := MessageStatusSent, CreatedAt := w.now }),
             (hQ, WSFrame.message
                { ID := msgID, ConversationID := cid, SenderID := P, Content := content,
                  MessageType := frame.messageType.getD MessageTypeText,
                  Status := MessageStatusSent, CreatedAt := w.now })] ∧
        statusOf (pushMessage P frame msgID w).1 msgID = some MessageStatusSent ∧
        statusOf (handleWSMessageSend P frame msgID w) msgID = some MessageStatusDelivered) ∧
    (w.connections Q = none →
      (handleWSMessageSend P frame msgID w).written
          = w.written ++
            [(hP, WSFrame.message
                { ID := msgID, ConversationID := cid, SenderID := P, Content := content,
                  MessageType := frame.messageType.getD MessageTypeText,
                  Status := MessageStatusSent, CreatedAt := w.now })] ∧
        statusOf (handleWSMessageSend P frame msgID w) msgID = some MessageStatusSent) := by
  obtain ⟨h1, h2, h3⟩ :=
    pushMessage_participant w P Q cid msgID hP frame content c hc hcontent hne hconv hPQ hdist
      hfresh hregP
  constructor
  · intro hQ hreg
    rw [hreg] at h2 h3
    simp only [Option.map_some'] at h3
    have hs : handleWSMessageSend P frame msgID w
        = markDelivered (pushMessage P frame msgID w).1 msgID := by
      unfold handleWSMessageSend
      rcases hp : pushMessage P frame msgID w with ⟨w', d⟩
      rw [hp] at h3
      simp only at h3
      subst h3
      rfl
    refine ⟨?_, ?_, ?_⟩
    · rw [hs]; simpa [markDelivered] using h2
    · simp [statusOf, h1]
    · rw [hs]; simp [statusOf, markDelivered, h1]
  · intro hreg
    rw [hreg] at h2 h3
    simp only [Option.map_none'] at h3
    have hs : handleWSMessageSend P frame msgID w = (pushMessage P frame msgID w).1 := by
      unfold handleWSMessageSend
      rcases hp : pushMessage P frame msgID w with ⟨w', d⟩
      rw [hp] at h3
      simp only at h3
      subst h3
      rfl
    refine ⟨?_, ?_⟩
    · rw [hs]; simpa using h2
    · rw [hs]; simp [statusOf, h1]

/-- C17, for the frame of user `10` to conversation `1`, whose counterpart
`20` is registered on connection `1`. -/
theorem message_relayed_and_delivered_witness :
    (handleWSMessageSend 10 exampleMessageFrame 101 exampleWorld).written
        = [(0, WSFrame.message
              { ID := 101, ConversationID := 1, SenderID := 10, Content := Memory.utf8 "hello",
                MessageType := "text", Status := "sent", CreatedAt := 5 }),
           (1, WSFrame.message
              { ID := 101, ConversationID := 1, SenderID := 10, Content := Memory.utf8 "hello",
                MessageType := "text", Status := "sent", CreatedAt := 5 })] ∧
    statusOf (pushMessage 10 exampleMessageFrame 101 exampleWorld).1 101 = some "sent" ∧
    statusOf (handleWSMessageSend 10 exampleMessageFrame 101 exampleWorld) 101
      = some "delivered" :=
  (message_relayed_and_delivered exampleWorld 10 20 1 101 0 exampleMessageFrame
    (Memory.utf8 "hello") { User1ID := 10, User2ID := 20, LastMessageAt := 3 }
    rfl rfl (by decide) rfl (Or.inl ⟨rfl, rfl⟩) (by decide) rfl rfl).1 1 rfl

/-! ## Read and typing frames -/

/-- The messages after `handleWSRead`, for a frame with both fields. -/
theorem handleWSRead_messages (w : World) (userID cid : UUID) (ids : List UUID)
    (frame : ReadFrame) (hc : frame.conversationID = some cid)
    (hm : frame.messageIDs = some ids) :
    (handleWSRead userID frame w).messages = (markRead w ids cid userID).messages := by
  unfold handleWSRead
  simp only [hc, hm]
  by_cases hl : ids.length = 0
  · have : ids = [] := List.length_eq_zero.1 hl
    subst this
    funext k
    simp only [List.length_nil, if_true, markRead, List.not_mem_nil, false_and, if_false]
    cases w.messages k <;> rfl
  · simp only [hl, if_false]
    split <;> rfl

/-- C18: after a read frame from user `U` that lists the ids `ids` for
conversation `C`, a stored message has status `read` when its id is listed, it
belongs to `C` and its sender is not `U`, and keeps its status otherwise; its
other fields are kept, and no message appears or disappears.  So a read frame
that lists only messages sent by `U` changes no message. -/
theorem read_marks_listed_messages_of_others (w : World) (userID cid : UUID)
    (ids : List UUID) (frame : ReadFrame) (hc : frame.conversationID = some cid)
    (hm : frame.messageIDs = some ids) :
    (∀ k : UUID, w.messages k = none → (handleWSRead userID frame w).messages k = none) ∧
    (∀ (k : UUID) (r : MessageRow), w.messages k = some r →
      (handleWSRead userID frame w).messages k
        = some { r with
            Status := if k ∈ ids ∧ r.ConversationID = cid ∧ r.SenderID ≠ userID then
                MessageStatusRead
              else r.Status }) ∧
    ((∀ (k : UUID) (r : MessageRow), k ∈ ids → w.messages k = some r → r.SenderID = userID) →
      (handleWSRead userID frame w).messages = w.messages) := by
  rw [handleWSRead_messages w userID cid ids frame hc hm]
  refine ⟨?_, ?_, ?_⟩
  · intro k hk
    simp [markRead, hk]
  · intro k r hk
    simp only [markRead, hk, Option.map_some']
    split_ifs <;> rfl
  · intro h
    funext k
    simp only [markRead]
    cases hk : w.messages k with
    | none => rfl
    | some r =>
      simp only [Option.map_some']
      by_cases hin : k ∈ ids
      · have := h k r hin hk
        simp [this]
      · simp [hin]

/-- C18, for the read frame of user `20` that lists message `100` of
conversation `1`, which was sent by user `10`. -/
theorem read_marks_listed_messages_of_others_witness :
    (handleWSRead 20 { conversationID := some 1, messageIDs := some [100] } exampleWorld).messages
        100
      = some { ConversationID := 1, SenderID := 10, Content := Memory.utf8 "hi",
               MessageType := "text", Status := "read", CreatedAt := 3 } :=
  (read_marks_listed_messages_of_others exampleWorld 20 1 [100]
    { conversationID := some 1, messageIDs := some [100] } rfl rfl).2.1 100
    { ConversationID := 1, SenderID := 10, Content := Memory.utf8 "hi",
      MessageType := "text", Status := "sent", CreatedAt := 3 } rfl

/-- C19 (evaluation of the code): user `30` is no participant of conversation
`1`, yet the read frame of `30` that lists message `100` of that conversation
changes its status from `sent` to `read`: `handleWSRead` updates the messages
before it looks the conversation up, and drops the error of that lookup.  No
frame is written (for the read frame and for a typing frame of `30` alike),
as no connection is registered under the zero id. -/
theorem read_from_non_participant_changes_status :
    queryOtherUser exampleWorld 30 1 = none ∧
    statusOf exampleWorld 100 = some "sent" ∧
    statusOf
        (handleWSRead 30 { conversationID := some 1, messageIDs := some [100] } exampleWorld) 100
      = some "read" ∧
    (handleWSRead 30 { conversationID := some 1, messageIDs := some [100] } exampleWorld).written
      = [] ∧
    (handleWSTyping 30 { conversationID := some 1, isTyping := some true } exampleWorld).written
      = [] := by
  refine ⟨by decide, by decide, by decide, by decide, by decide⟩

/-! ## Message status -/

/-- A read update never lowers the status of a message. -/
theorem markRead_rank (w : World) (ids : List UUID) (cid userID k : UUID) (r : MessageRow)
    (h : w.messages k = some r) :
    ∃ r', (markRead w ids cid userID).messages k = some r' ∧
      statusRank r.Status ≤ statusRank r'.Status := by
  simp only [markRead, h, Option.map_some']
  split_ifs with hcond
  · refine ⟨_, rfl, ?_⟩
    simp only [statusRank, MessageStatusRead, MessageStatusDelivered, if_true]
    split_ifs <;> decide
  · exact ⟨r, rfl, Nat.le_refl _⟩

/-- A message frame handled to completion leaves every stored message as it
was. -/
theorem handleWSMessageSend_keeps_stored (w : World) (userID msgID : UUID) (frame : MessageFrame)
    (k : UUID) (r : MessageRow) (h : w.messages k = some r) :
    (handleWSMessageSend userID frame msgID w).messages k = some r := by
  unfold handleWSMessageSend pushMessage
  cases frame.conversationID with
  | none => exact h
  | some cid =>
    cases frame.content with
    | none => exact h
    | some content =>
      by_cases he : content = []
      · simpa [he] using h
      · simp only [he, if_false]
        cases queryOtherUser w userID cid with
        | none => exact h
        | some other =>
          cases hfresh : w.messages msgID with
          | some r0 => simpa [insertMessage, hfresh] using h
          | none =>
            have hne : k ≠ msgID := fun e => by rw [e, hfresh] at h; cases h
            simp only [insertMessage, hfresh, touchConversation, writeJSON]
            cases w.connections userID <;> cases w.connections other <;>
              simp [markDelivered, hne, h]

/-- A frame handled to completion never lowers the status of a stored
message. -/
theorem RelayEvent.handle_rank (w : World) (e : RelayEvent) (k : UUID) (r : MessageRow)
    (h : w.messages k = some r) :
    ∃ r', (e.handle w).messages k = some r' ∧ statusRank r.Status ≤ statusRank r'.Status := by
  cases e with
  | message userID frame msgID =>
    exact ⟨r, handleWSMessageSend_keeps_stored w userID msgID frame k r h, Nat.le_refl _⟩
  | typing userID frame =>
    refine ⟨r, ?_, Nat.le_refl _⟩
    simp only [RelayEvent.handle, handleWSTyping]
    cases frame.conversationID with
    | none => exact h
    | some cid =>
      cases frame.isTyping with
      | none => exact h
      | some b =>
        simp only
        split <;> simpa [writeJSON] using h
  | read userID frame =>
    simp only [RelayEvent.handle]
    cases hc : frame.conversationID with
    | none => exact ⟨r, by simpa [handleWSRead, hc] using h, Nat.le_refl _⟩
    | some cid =>
      cases hm : frame.messageIDs with
      | none => exact ⟨r, by simpa [handleWSRead, hc, hm] using h, Nat.le_refl _⟩
      | some ids =>
        rw [handleWSRead_messages w userID cid ids frame hc hm]
        exact markRead_rank w ids cid userID k r h

/-- C20 (counterexample): user `10` sends a message, stored as `101` with
status `sent` and pushed to user `20`; the read frame of `20` for it is
handled before the delivered update of the send handler and sets the status
to `read`; the delivered update then sets it back to `delivered`. -/
theorem delivered_update_lowers_read_message :
    (pushMessage 10 exampleMessageFrame 101 exampleWorld).2 = some 101 ∧
    statusOf (pushMessage 10 exampleMessageFrame 101 exampleWorld).1 101 = some "sent" ∧
    statusOf
        (handleWSRead 20 { conversationID := some 1, messageIDs := some [101] }
          (pushMessage 10 exampleMessageFrame 101 exampleWorld).1) 101
      = some "read" ∧
    statusOf
        (markDelivered
          (handleWSRead 20 { conversationID := some 1, messageIDs := some [101] }
            (pushMessage 10 exampleMessageFrame 101 exampleWorld).1) 101) 101
      = some "delivered" ∧
    statusRank "delivered" < statusRank "read" := by
  refine ⟨by decide, by decide, by decide, by decide, by decide⟩

/-- C20 (amended): when every frame is handled to completion before the next
one, the status of a stored message never moves backward in the order
`sent < delivered < read`, whatever frames follow; and a read update never
lowers a status, in whatever world it runs. -/
theorem status_never_lowered_by_completed_frames (w : World) (events : List RelayEvent)
    (k : UUID) (r : MessageRow) (h : w.messages k = some r) :
    (∃ r', (runEvents w events).messages k = some r' ∧
      statusRank r.Status ≤ statusRank r'.Status) ∧
    (∀ (ids : List UUID) (cid userID : UUID),
      ∃ r', (markRead w ids cid userID).messages k = some r' ∧
        statusRank r.Status ≤ statusRank r'.Status) := by
  refine ⟨?_, fun ids cid userID => markRead_rank w ids cid userID k r h⟩
  induction events generalizing w r with
  | nil => exact ⟨r, h, Nat.le_refl _⟩
  | cons e rest ih =>
    obtain ⟨r1, h1, hr1⟩ := RelayEvent.handle_rank w e k r h
    obtain ⟨r2, h2, hr2⟩ := ih (e.handle w) r1 h1
    exact ⟨r2, by simpa [runEvents] using h2, Nat.le_trans hr1 hr2⟩

/-- C20 (amended), for message `100` under a message frame of user `10`
followed by a read frame of user `20`. -/
theorem status_never_lowered_by_completed_frames_witness :
    ∃ r', (runEvents exampleWorld
        [.message 10 exampleMessageFrame 101,
         .read 20 { conversationID := some 1, messageIDs := some [100, 101] }]).messages 100
          = some r' ∧
      statusRank "sent" ≤ statusRank r'.Status :=
  (status_never_lowered_by_completed_frames exampleWorld
    [.message 10 exampleMessageFrame 101,
     .read 20 { conversationID := some 1, messageIDs := some [100, 101] }] 100
    { ConversationID := 1, SenderID := 10, Content := Memory.utf8 "hi",
      MessageType := "text", Status := "sent", CreatedAt := 3 } rfl).1

end Relay

namespace Memory

/-! ## Runs of updates -/

theorem extractTraits_message_count (content : Bytes) :
    extractTraits content "message_count" = none := by
  unfold extractTraits
  simp only [Map.set, Map.empty]
  split_ifs <;> first | rfl | (exfalso; revert ‹_›; decide)

theorem UpdateContext_keeps_traits_uncounted (m : MemoryContext) (content : Bytes)
    (h : m.TargetTraits "message_count" = none) (hs : m.Stage = 0 ∨ m.Stage = 1) :
    (UpdateContext m content).TargetTraits "message_count" = none ∧
      (UpdateContext m content).Stage = 1 := by
  constructor
  · show ((mergeTraits m.TargetTraits (extractTraits content)) "message_count").map jsonRoundTrip
      = none
    unfold mergeTraits
    simp only [extractTraits_message_count, h]
    rfl
  · show calculateStage m.Stage content m.TargetTraits = 1
    unfold calculateStage
    simp only [h]
    rcases hs with hs | hs
    · rw [hs]; simp [FlirtStageColdStart, FlirtStageBreakingIce]
    · rw [hs]; simp [FlirtStageColdStart, FlirtStageBreakingIce]

theorem runUpdates_invariant (contents : List Bytes) :
    ∀ m : MemoryContext, m.TargetTraits "message_count" = none → (m.Stage = 0 ∨ m.Stage = 1) →
      (runUpdates m contents).TargetTraits "message_count" = none ∧
        ((runUpdates m contents).Stage = 0 ∨ (runUpdates m contents).Stage = 1) ∧
        (contents ≠ [] → (runUpdates m contents).Stage = 1) := by
  induction contents with
  | nil =>
    intro m h hs
    exact ⟨h, hs, fun hne => absurd rfl hne⟩
  | cons content rest ih =>
    intro m h hs
    obtain ⟨h1, h2⟩ := UpdateContext_keeps_traits_uncounted m content h hs
    obtain ⟨r1, r2, r3⟩ := ih (UpdateContext m content) h1 (Or.inr h2)
    refine ⟨r1, r2, fun _ => ?_⟩
    by_cases hr : rest = []
    · subst hr
      exact h2
    · exact r3 hr

/-- C27: starting from the context of a new conversation, after any run of
`UpdateContext` calls the stored trait map has no key `message_count` and the
stored stage is at most 1 (it is 1 as soon as one update ran). -/
theorem trait_map_never_counts_messages (contents : List Bytes) :
    (runUpdates newContext contents).TargetTraits "message_count" = none ∧
    0 ≤ (runUpdates newContext contents).Stage ∧
    (runUpdates newContext contents).Stage ≤ FlirtStageBreakingIce ∧
    (contents ≠ [] → (runUpdates newContext contents).Stage = FlirtStageBreakingIce) := by
  obtain ⟨h1, h2, h3⟩ := runUpdates_invariant contents newContext rfl (Or.inl rfl)
  refine ⟨h1, ?_, ?_, h3⟩
  · rcases h2 with h | h <;> omega
  · unfold FlirtStageBreakingIce
    rcases h2 with h | h <;> omega

/-! ## Runs of pattern updates -/

theorem messageType_cases (content : Bytes) :
    messageType content = "question" ∨ messageType content = "statement" := by
  unfold messageType
  split_ifs
  · exact Or.inl rfl
  · exact Or.inr rfl

/-- One `updatePatterns` call on a map whose counters are absent or numbers:
`message_count` becomes `n + 1` and the two type counters again add up to
it. -/
theorem updatePatterns_counts (m : Map) (content : Bytes) (n : Nat)
    (hc : (n = 0 ∧ m "message_count" = none) ∨ m "message_count" = some (.num n))
    (hq : m "question" = none ∨ ∃ a, m "question" = some (.num a))
    (hs : m "statement" = none ∨ ∃ a, m "statement" = some (.num a))
    (hsum : counter m "question" + counter m "statement" = n) :
    updatePatterns m content "message_count" = some (.num (n + 1)) ∧
    (∃ a, updatePatterns m content (messageType content) = some (.num a)) ∧
    (updatePatterns m content "question" = none ∨
      ∃ a, updatePatterns m content "question" = some (.num a)) ∧
    (updatePatterns m content "statement" = none ∨
      ∃ a, updatePatterns m content "statement" = some (.num a)) ∧
    counter (updatePatterns m content) "question"
      + counter (updatePatterns m content) "statement" = n + 1 := by
  have e1 : ("message_count" = "question") = False := by decide
  have e2 : ("message_count" = "statement") = False := by decide
  have e3 : ("question" = "statement") = False := by decide
  have e4 : ("statement" = "question") = False := by decide
  have e5 : ("question" = "message_count") = False := by decide
  have e6 : ("statement" = "message_count") = False := by decide
  have hmc : updatePatterns m content "message_count" = some (.num (n + 1)) := by
    rw [updatePatterns_apply]
    rcases messageType_cases content with ht | ht
    · rw [ht]
      rcases hc with ⟨h0, hc⟩ | hc
      · simp [e1, hc, h0]
      · simp [e1, hc]
    · rw [ht]
      rcases hc with ⟨h0, hc⟩ | hc
      · simp [e2, hc, h0]
      · simp [e2, hc]
  refine ⟨hmc, ?_⟩
  unfold counter at hsum ⊢
  rw [updatePatterns_apply m content "question", updatePatterns_apply m content "statement",
    updatePatterns_apply m content (messageType content)]
  rcases messageType_cases content with ht | ht
  · rw [ht]
    rcases hq with hq | ⟨a, hq⟩ <;> rcases hs with hs | ⟨b, hs⟩ <;>
      simp [hq, hs, e3, e4, e5, e6] at hsum ⊢ <;> omega
  · rw [ht]
    rcases hq with hq | ⟨a, hq⟩ <;> rcases hs with hs | ⟨b, hs⟩ <;>
      simp [hq, hs, e3, e4, e5, e6] at hsum ⊢ <;> omega

theorem runPatterns_snoc (m : Map) (contents : List Bytes) (content : Bytes) :
    runPatterns m (contents ++ [content]) = updatePatterns (runPatterns m contents) content := by
  simp [runPatterns, List.foldl_append]

theorem runPatterns_invariant (contents : List Bytes) :
    ((contents.length = 0 ∧ runPatterns Map.empty contents "message_count" = none) ∨
      runPatterns Map.empty contents "message_count" = some (.num contents.length)) ∧
    (runPatterns Map.empty contents "question" = none ∨
      ∃ a, runPatterns Map.empty contents "question" = some (.num a)) ∧
    (runPatterns Map.empty contents "statement" = none ∨
      ∃ a, runPatterns Map.empty contents "statement" = some (.num a)) ∧
    counter (runPatterns Map.empty contents) "question"
      + counter (runPatterns Map.empty contents) "statement" = contents.length := by
  induction contents using List.reverseRecOn with
  | nil => exact ⟨Or.inl ⟨rfl, rfl⟩, Or.inl rfl, Or.inl rfl, rfl⟩
  | append_singleton contents content ih =>
    obtain ⟨hc, hq, hs, hsum⟩ := ih
    obtain ⟨r1, _, r3, r4, r5⟩ :=
      updatePatterns_counts (runPatterns Map.empty contents) content contents.length hc hq hs hsum
    rw [runPatterns_snoc, List.length_append, List.length_singleton]
    refine ⟨Or.inr ?_, r3, r4, ?_⟩
    · rw [r1]; push_cast; rfl
    · rw [r5]; push_cast; rfl

/-- C29: starting from an empty pattern map, after a run of `n` calls of
`updatePatterns` the counter `message_count` is `n` (stored as the number `n`
once a call ran), and the `question` counter plus the `statement` counter,
an absent counter counting as 0, is `message_count`. -/
theorem pattern_counters_add_up (contents : List Bytes) :
    counter (runPatterns Map.empty contents) "message_count" = contents.length ∧
    (contents ≠ [] →
      runPatterns Map.empty contents "message_count" = some (.num contents.length)) ∧
    counter (runPatterns Map.empty contents) "question"
      + counter (runPatterns Map.empty contents) "statement"
      = counter (runPatterns Map.empty contents) "message_count" := by
  obtain ⟨hc, _, _, hsum⟩ := runPatterns_invariant contents
  have hcount : counter (runPatterns Map.empty contents) "message_count" = contents.length := by
    unfold counter
    rcases hc with ⟨h0, hc⟩ | hc
    · rw [hc, h0]; rfl
    · rw [hc]
  refine ⟨hcount, ?_, ?_⟩
  · intro hne
    rcases hc with ⟨h0, _⟩ | hc
    · exact absurd (List.length_eq_zero.1 h0) hne
    · exact hc
  · rw [hsum, hcount]

/-! ## Keyword tables -/

theorem matchKeywords_eq_filter (contentLower : Bytes) (table : List (String × String)) :
    matchKeywords contentLower table
      = (table.filter (fun kv => contains contentLower (lowercase (utf8 kv.1)))).map Prod.snd := by
  unfold matchKeywords
  have H : ∀ acc : List String,
      table.foldl (fun acc kv =>
          if contains contentLower (lowercase (utf8 kv.1)) then acc ++ [kv.2] else acc) acc
        = acc ++ (table.filter
            (fun kv => contains contentLower (lowercase (utf8 kv.1)))).map Prod.snd := by
    induction table with
    | nil => intro acc; simp
    | cons kv rest ih =>
      intro acc
      rw [List.foldl_cons, ih]
      by_cases h : contains contentLower (lowercase (utf8 kv.1)) = true
      · simp [h]
      · simp [h]
  simpa using H []

theorem take_of_contains (s substr : Bytes) (h : contains s substr = true) :
    s.take substr.length = substr := by
  unfold contains at h
  simp only [Bool.and_eq_true, beq_iff_eq] at h
  exact h.2

theorem filter_length_le_one {α : Type} (p : α → Bool) (l : List α)
    (h : ∀ a ∈ l, ∀ b ∈ l, p a = true → p b = true → a = b) (hl : l.Nodup) :
    (l.filter p).length ≤ 1 := by
  induction l with
  | nil => simp
  | cons a rest ih =>
    have hrest := ih (fun x hx y hy => h x (List.mem_cons_of_mem _ hx) y (List.mem_cons_of_mem _ hy))
      (List.nodup_cons.1 hl).2
    by_cases ha : p a = true
    · have hnil : rest.filter p = [] := by
        rw [List.filter_eq_nil_iff]
        intro b hb hpb
        have := h a (List.mem_cons_self _ _) b (List.mem_cons_of_mem _ hb) ha hpb
        exact (List.nodup_cons.1 hl).1 (this ▸ hb)
      simp [List.filter_cons, ha, hnil]
    · simp [List.filter_cons, ha, hrest]

theorem perm_eq_of_length_le_one {α : Type} (l₁ l₂ : List α) (h : l₁.Perm l₂)
    (hl : l₂.length ≤ 1) : l₁ = l₂ := by
  match l₂, hl, h with
  | [], _, h => exact h.eq_nil
  | [x], _, h => exact List.perm_singleton.1 h
  | _ :: _ :: _, hl, _ => simp at hl

theorem interestKeywords_keys :
    ∀ a ∈ interestKeywords, ∀ b ∈ interestKeywords,
      (lowercase (utf8 a.1)).length = (lowercase (utf8 b.1)).length ∧
        (lowercase (utf8 a.1) = lowercase (utf8 b.1) → a = b) := by
  decide

theorem topicKeywords_keys :
    ∀ a ∈ topicKeywords, ∀ b ∈ topicKeywords,
      (lowercase (utf8 a.1)).length = (lowercase (utf8 b.1)).length ∧
        (lowercase (utf8 a.1) = lowercase (utf8 b.1) → a = b) := by
  decide

/-- In a table whose keywords all have one length and are pairwise distinct,
at most one keyword starts the content, so the loop collects at most one
category and collects the same in every order of the table. -/
theorem matchKeywords_order (contentLower : Bytes) (table order : List (String × String))
    (hkeys : ∀ a ∈ table, ∀ b ∈ table,
      (lowercase (utf8 a.1)).length = (lowercase (utf8 b.1)).length ∧
        (lowercase (utf8 a.1) = lowercase (utf8 b.1) → a = b))
    (hnodup : table.Nodup) (hperm : order.Perm table) :
    (matchKeywords contentLower table).length ≤ 1 ∧
      matchKeywords contentLower order = matchKeywords contentLower table := by
  have hlen : (matchKeywords contentLower table).length ≤ 1 := by
    rw [matchKeywords_eq_filter, List.length_map]
    apply filter_length_le_one _ _ _ hnodup
    intro a ha b hb hpa hpb
    have ta := take_of_contains _ _ hpa
    have tb := take_of_contains _ _ hpb
    rw [(hkeys a ha b hb).1] at ta
    exact (hkeys a ha b hb).2 (ta.symm.trans tb)
  refine ⟨hlen, perm_eq_of_length_le_one _ _ ?_ hlen⟩
  rw [matchKeywords_eq_filter, matchKeywords_eq_filter]
  exact (hperm.filter _).map _

/-- C28: for every content `extractTraits` collects at most one interest and
at most one topic, and it returns the same map in whatever order the two
keyword tables are visited. -/
theorem extractTraits_order_independent (content : Bytes) :
    (matchKeywords (lowercase content) interestKeywords).length ≤ 1 ∧
    (matchKeywords (lowercase content) topicKeywords).length ≤ 1 ∧
    (∀ interestOrder topicOrder : List (String × String),
      interestOrder.Perm interestKeywords → topicOrder.Perm topicKeywords →
        extractTraitsIn interestOrder topicOrder content = extractTraits content) := by
  have hi := fun order => matchKeywords_order (lowercase content) interestKeywords order
    interestKeywords_keys (by decide)
  have ht := fun order => matchKeywords_order (lowercase content) topicKeywords order
    topicKeywords_keys (by decide)
  refine ⟨(hi _ (List.Perm.refl _)).1, (ht _ (List.Perm.refl _)).1, ?_⟩
  intro interestOrder topicOrder hpi hpt
  unfold extractTraitsIn extractTraits
  simp only [(hi interestOrder hpi).2, (ht topicOrder hpt).2]

end Memory

namespace Relay

/-! ## The two send paths -/

/-- C21 (evaluation of the code): `handleWSMessageSend` leaves the table
`memory_context` as it was, for every frame.  For the message "hello" of
user `10` to conversation `1`, the HTTP handler `sendMessage` stores the
message with status `sent` and a memory row of stage 1 for the conversation
and the user, while the WebSocket handler stores the same message, delivered,
and no memory row. -/
theorem ws_send_path_skips_memory_update :
    (∀ (userID msgID : UUID) (frame : MessageFrame) (app : App),
      (handleWSMessageSendApp userID frame msgID app).memory = app.memory) ∧
    ((sendMessage 10 (some 1) (some { Content := Memory.utf8 "hello", MessageType := "" }) 101
        exampleApp).1.world.messages 101
      = some { ConversationID := 1, SenderID := 10, Content := Memory.utf8 "hello",
               MessageType := "text", Status := "sent", CreatedAt := 5 }) ∧
    (((sendMessage 10 (some 1) (some { Content := Memory.utf8 "hello", MessageType := "" }) 101
        exampleApp).1.memory (1, 10)).map (fun ctx => ctx.Stage) = some 1) ∧
    ((handleWSMessageSendApp 10 exampleMessageFrame 101 exampleApp).world.messages 101
      = some { ConversationID := 1, SenderID := 10, Content := Memory.utf8 "hello",
               MessageType := "text", Status := "delivered", CreatedAt := 5 }) ∧
    (((handleWSMessageSendApp 10 exampleMessageFrame 101 exampleApp).memory (1, 10)).map
        (fun ctx => ctx.Stage) = none) := by
  refine ⟨fun _ _ _ _ => rfl, ?_, ?_, ?_, ?_⟩
  · decide
  · decide
  · decide
  · decide

/-! ## Stored content and type -/

/-- C25 (counterexample): a frame of user `10` with `message_type` "video"
is stored with the type "video", which is none of `text`, `image`,
`voice`; the HTTP handler stores the type "video" of a request body
likewise. -/
theorem frame_type_stored_unchecked :
    ((handleWSMessageSend 10
        { conversationID := some 1, content := some (Memory.utf8 "hello"),
          messageType := some "video" } 101 exampleWorld).messages 101).map
        (fun r => r.MessageType) = some "video" ∧
    ((sendMessage 10 (some 1) (some { Content := Memory.utf8 "hello", MessageType := "video" })
        101 exampleApp).1.world.messages 101).map (fun r => r.MessageType) = some "video" ∧
    "video" ∉ [MessageTypeText, MessageTypeImage, MessageTypeVoice] := by
  refine ⟨?_, ?_, ?_⟩
  · decide
  · decide
  · decide

/-- C25 (amended): the message the handler stores under a new id has the
content of the frame, which is not empty; its type is `text` when the frame
gives no message type and is the string of the frame when that is not
empty. -/
theorem stored_message_content_and_type (w : World) (userID msgID : UUID) (frame : MessageFrame)
    (r : MessageRow) (hfresh : w.messages msgID = none)
    (h : (handleWSMessageSend userID frame msgID w).messages msgID = some r) :
    r.Content ≠ [] ∧ frame.content = some r.Content ∧
    (frame.messageType = none → r.MessageType = MessageTypeText) ∧
    (∀ mt, frame.messageType = some mt → mt ≠ "" → r.MessageType = mt) := by
  unfold handleWSMessageSend pushMessage at h
  cases hcid : frame.conversationID with
  | none => simp [hcid, hfresh] at h
  | some cid =>
    cases hcontent : frame.content with
    | none => simp [hcid, hcontent, hfresh] at h
    | some content =>
      by_cases he : content = []
      · simp [hcid, hcontent, he, hfresh] at h
      · simp only [hcid, hcontent, he, if_false] at h
        cases hq : queryOtherUser w userID cid with
        | none => simp [hq, hfresh] at h
        | some other =>
          simp only [hq, insertMessage, hfresh, touchConversation, writeJSON] at h
          cases hu : w.connections userID <;> cases ho : w.connections other <;>
            cases hmt : frame.messageType <;>
            simp [hu, ho, hmt, markDelivered] at h <;>
            subst h <;> simp [he]

/-- C25 (amended), for the frame "hello" of user `10`, which names no type. -/
theorem stored_message_content_and_type_witness :
    Memory.utf8 "hello" ≠ [] ∧
    exampleMessageFrame.content = some (Memory.utf8 "hello") ∧
    (exampleMessageFrame.messageType = none → "text" = MessageTypeText) ∧
    (∀ mt, exampleMessageFrame.messageType = some mt → mt ≠ "" → "text" = mt) :=
  stored_message_content_and_type exampleWorld 10 101 exampleMessageFrame
    { ConversationID := 1, SenderID := 10, Content := Memory.utf8 "hello",
      MessageType := "text", Status := "delivered", CreatedAt := 5 } rfl (by decide)

/-! ## Order of delivery -/

/-- What a message frame handled to completion leaves of the rest of the
world: the registry and the clock are as before, every conversation keeps
its two users, and no other message id comes into use. -/
theorem handleWSMessageSend_frame (w : World) (userID msgID : UUID) (frame : MessageFrame) :
    (handleWSMessageSend userID frame msgID w).connections = w.connections ∧
    (handleWSMessageSend userID frame msgID w).now = w.now ∧
    (∀ k c, w.conversations k = some c →
      ∃ t, (handleWSMessageSend userID frame msgID w).conversations k
        = some { c with LastMessageAt := t }) ∧
    (∀ k, k ≠ msgID → w.messages k = none →
      (handleWSMessageSend userID frame msgID w).messages k = none) := by
  have hsame : ∀ k c, w.conversations k = some c →
      ∃ t, w.conversations k = some { c with LastMessageAt := t } :=
    fun k c h => ⟨c.LastMessageAt, h⟩
  unfold handleWSMessageSend pushMessage
  cases frame.conversationID with
  | none => exact ⟨rfl, rfl, hsame, fun _ _ h => h⟩
  | some cid =>
    cases frame.content with
    | none => exact ⟨rfl, rfl, hsame, fun _ _ h => h⟩
    | some content =>
      by_cases he : content = []
      · simpa [he] using hsame
      · simp only [he, if_false]
        cases queryOtherUser w userID cid with
        | none => exact ⟨rfl, rfl, hsame, fun _ _ h => h⟩
        | some other =>
          cases hfresh : w.messages msgID with
          | some r0 => simpa [insertMessage, hfresh] using hsame
          | none =>
            simp only [insertMessage, hfresh, touchConversation, writeJSON]
            have hconv : ∀ k c, w.conversations k = some c →
                ∃ t, (if k = cid then
                    (w.conversations k).map (fun c => { c with LastMessageAt := w.now })
                  else w.conversations k) = some { c with LastMessageAt := t } := by
              intro k c h
              by_cases hk : k = cid
              · subst hk
                exact ⟨w.now, by simp [h]⟩
              · exact ⟨c.LastMessageAt, by simp [hk, h]⟩
            cases w.connections userID <;> cases w.connections other <;>
              refine ⟨rfl, rfl, hconv, ?_⟩ <;> intro k hk hnone <;>
              simp [markDelivered, hk, hnone]

/-- The frames a valid message frame of a registered participant adds to the
log when the counterpart is registered too: the stored message, to the
sender and then to the recipient. -/
theorem handleWSMessageSend_written (w : World) (P Q cid msgID : UUID) (hP hQ : Handle)
    (frame : MessageFrame) (content : Memory.Bytes) (c : ConversationRow)
    (hc : frame.conversationID = some cid) (hcontent : frame.content = some content)
    (hne : content ≠ []) (hconv : w.conversations cid = some c)
    (hPQ : (c.User1ID = P ∧ c.User2ID = Q) ∨ (c.User1ID = Q ∧ c.User2ID = P)) (hdist : P ≠ Q)
    (hfresh : w.messages msgID = none) (hregP : w.connections P = some hP)
    (hregQ : w.connections Q = some hQ) :
    (handleWSMessageSend P frame msgID w).written
      = w.written ++
        [(hP, WSFrame.message
            { ID := msgID, ConversationID := cid, SenderID := P, Content := content,
              MessageType := frame.messageType.getD MessageTypeText,
              Status := MessageStatusSent, CreatedAt := w.now }),
         (hQ, WSFrame.message
            { ID := msgID, ConversationID := cid, SenderID := P, Content := content,
              MessageType := frame.messageType.getD MessageTypeText,
              Status := MessageStatusSent, CreatedAt := w.now })] := by
  obtain ⟨_, h2, h3⟩ :=
    pushMessage_participant w P Q cid msgID hP frame content c hc hcontent hne hconv hPQ hdist
      hfresh hregP
  rw [hregQ] at h2 h3
  simp only [Option.map_some'] at h3
  have hs : handleWSMessageSend P frame msgID w
      = markDelivered (pushMessage P frame msgID w).1 msgID := by
    unfold handleWSMessageSend
    rcases hp : pushMessage P frame msgID w with ⟨w', d⟩
    rw [hp] at h3
    simp only at h3
    subst h3
    rfl
  rw [hs]
  simpa [markDelivered] using h2

/-- C26 (counterexample): user `10` sends the frame "first" and then the
frame "second" to conversation `1`.  One of the orders in which the two
handlers can run is the handler of "second" before the handler of "first",
and in it the connection of the recipient `20` receives "second" before
"first". -/
theorem later_frame_can_arrive_first :
    [RelayEvent.message 10
        { conversationID := some 1, content := some (Memory.utf8 "second"),
          messageType := none } 102,
      RelayEvent.message 10
        { conversationID := some 1, content := some (Memory.utf8 "first"),
          messageType := none } 101]
      ∈ handlingOrders
        [RelayEvent.message 10
          { conversationID := some 1, content := some (Memory.utf8 "first"),
            messageType := none } 101,
         RelayEvent.message 10
          { conversationID := some 1, content := some (Memory.utf8 "second"),
            messageType := none } 102] ∧
    receivedBy
        (runEvents exampleWorld
          [RelayEvent.message 10
            { conversationID := some 1, content := some (Memory.utf8 "second"),
              messageType := none } 102,
           RelayEvent.message 10
            { conversationID := some 1, content := some (Memory.utf8 "first"),
              messageType := none } 101]) 1
      = [WSFrame.message
          { ID := 102, ConversationID := 1, SenderID := 10, Content := Memory.utf8 "second",
            MessageType := "text", Status := "sent", CreatedAt := 5 },
         WSFrame.message
          { ID := 101, ConversationID := 1, SenderID := 10, Content := Memory.utf8 "first",
            MessageType := "text", Status := "sent", CreatedAt := 5 }] := by
  constructor
  · exact List.mem_permutations.2 (List.Perm.swap _ _ _)
  · decide

/-- C26 (amended): two valid message frames `A` then `B` of participant `P`
for one conversation, both stored, sender and recipient registered.  When
the handler of `A` runs to completion before the handler of `B`, the
connection of the recipient receives the message of `A` and then the
message of `B`. -/
theorem frames_handled_in_order_arrive_in_order (w : World) (P Q cid idA idB : UUID)
    (hP hQ : Handle) (A B : MessageFrame) (contentA contentB : Memory.Bytes)
    (c : ConversationRow)
    (hcA : A.conversationID = some cid) (hcontentA : A.content = some contentA)
    (hneA : contentA ≠ [])
    (hcB : B.conversationID = some cid) (hcontentB : B.content = some contentB)
    (hneB : contentB ≠ [])
    (hconv : w.conversations cid = some c)
    (hPQ : (c.User1ID = P ∧ c.User2ID = Q) ∨ (c.User1ID = Q ∧ c.User2ID = P)) (hdist : P ≠ Q)
    (hfreshA : w.messages idA = none) (hfreshB : w.messages idB = none) (hid : idA ≠ idB)
    (hregP : w.connections P = some hP) (hregQ : w.connections Q = some hQ)
    (hconn : hP ≠ hQ) :
    receivedBy (runEvents w [RelayEvent.message P A idA, RelayEvent.message P B idB]) hQ
      = receivedBy w hQ ++
        [WSFrame.message
          { ID := idA, ConversationID := cid, SenderID := P, Content := contentA,
            MessageType := A.messageType.getD MessageTypeText,
            Status := MessageStatusSent, CreatedAt := w.now },
         WSFrame.message
          { ID := idB, ConversationID := cid, SenderID := P, Content := contentB,
            MessageType := B.messageType.getD MessageTypeText,
            Status := MessageStatusSent, CreatedAt := w.now }] := by
  have hA := handleWSMessageSend_written w P Q cid idA hP hQ A contentA c hcA hcontentA hneA
    hconv hPQ hdist hfreshA hregP hregQ
  obtain ⟨f1, f2, f3, f4⟩ := handleWSMessageSend_frame w P idA A
  obtain ⟨t, hconv1⟩ := f3 cid c hconv
  have hB := handleWSMessageSend_written (handleWSMessageSend P A idA w) P Q cid idB hP hQ B
    contentB { c with LastMessageAt := t } hcB hcontentB hneB hconv1 hPQ hdist
    (f4 idB (Ne.symm hid) hfreshB) (by rw [f1]; exact hregP) (by rw [f1]; exact hregQ)
  have hrun : runEvents w [RelayEvent.message P A idA, RelayEvent.message P B idB]
      = handleWSMessageSend P B idB (handleWSMessageSend P A idA w) := rfl
  rw [hrun]
  unfold receivedBy
  rw [hB, hA, f2]
  simp [List.filter_append, List.filter_cons, hconn]

/-- C26 (amended), for the frames "first" and "second" of user `10`, handled
in the order they were sent. -/
theorem frames_handled_in_order_arrive_in_order_witness :
    receivedBy
        (runEvents exampleWorld
          [RelayEvent.message 10
            { conversationID := some 1, content := some (Memory.utf8 "first"),
              messageType := none } 101,
           RelayEvent.message 10
            { conversationID := some 1, content := some (Memory.utf8 "second"),
              messageType := none } 102]) 1
      = receivedBy exampleWorld 1 ++
        [WSFrame.message
          { ID := 101, ConversationID := 1, SenderID := 10, Content := Memory.utf8 "first",
            MessageType := "text", Status := "sent", CreatedAt := 5 },
         WSFrame.message
          { ID := 102, ConversationID := 1, SenderID := 10, Content := Memory.utf8 "second",
            MessageType := "text", Status := "sent", CreatedAt := 5 }] :=
  frames_handled_in_order_arrive_in_order exampleWorld 10 20 1 101 102 0 1 _ _
    (Memory.utf8 "first") (Memory.utf8 "second")
    { User1ID := 10, User2ID := 20, LastMessageAt := 3 }
    rfl rfl (by decide) rfl rfl (by decide) rfl (Or.inl ⟨rfl, rfl⟩) (by decide) rfl rfl
    (by decide) rfl rfl (by decide)

end Relay

namespace Suggest

open Memory (Bytes utf8 Item Value Map)

/-! ## Fallback suggestions -/

/-- C23: for every style, stage and name, `getFallbackSuggestions` returns
exactly three entries in a fixed order: an entry whose style is the name of
the style of the user, then the fixed entry of style 幽默风趣, then the fixed
entry of style 温柔浪漫.  The list depends on the style alone. -/
theorem fallback_is_three_fixed_entries (flirtStyle : String) (stage : Int)
    (targetName : Bytes) :
    (∃ first : Suggestion,
      first.Style = FlirtStyleNames flirtStyle ∧
      getFallbackSuggestions flirtStyle stage targetName
        = [first,
           { Text := "看来我们很有共同语言嘛，以后要多聊聊~", Style := "幽默风趣",
             Reason := "用轻松的语气发现共同点，鼓励继续交流" },
           { Text := "感觉和你聊天的时候，心情都会变好", Style := "温柔浪漫",
             Reason := "表达对方带来的正面影响，增进情感连接" }]) ∧
    (getFallbackSuggestions flirtStyle stage targetName).length = 3 ∧
    getFallbackSuggestions flirtStyle stage targetName = getFallbackSuggestions flirtStyle 0 [] ∧
    FlirtStyleNames FlirtStyleDirect = "直球型" ∧
    FlirtStyleNames FlirtStyleHumorous = "幽默风趣" ∧
    FlirtStyleNames FlirtStyleRomantic = "温柔浪漫" ∧
    FlirtStyleNames FlirtStyleSubtle = "含蓄内敛" := by
  refine ⟨?_, ?_, rfl, by decide, by decide, by decide, by decide⟩
  · unfold getFallbackSuggestions
    simp only [List.nil_append, List.singleton_append, List.cons_append]
    split_ifs <;> exact ⟨_, rfl, rfl⟩
  · unfold getFallbackSuggestions
    simp

/-! ## The history of the prompt -/

theorem historyLoop_eq (chatHistory : List HistoryEntry) :
    ∀ (i : Nat) (history : Bytes), i ≤ 4 →
      historyLoop i history chatHistory
        = history ++ (chatHistory.take (5 - i)).flatMap historyLine := by
  induction chatHistory with
  | nil => intro i history _; simp [historyLoop]
  | cons msg rest ih =>
    intro i history hi
    unfold historyLoop
    by_cases h4 : i ≥ 4
    · have : i = 4 := by omega
      subst this
      simp
    · have hi1 : i + 1 ≤ 4 := by omega
      have e : 5 - i = (5 - (i + 1)) + 1 := by omega
      simp only [h4, if_false]
      rw [ih (i + 1) _ hi1, e, List.take_succ_cons, List.flatMap_cons, List.append_assoc]

/-- The history of the prompt is made of the first five entries of the list
it is given. -/
theorem buildHistory_eq (chatHistory : List HistoryEntry) :
    buildHistory chatHistory = (chatHistory.take 5).flatMap historyLine := by
  unfold buildHistory
  rw [historyLoop_eq chatHistory 0 [] (by omega)]
  simp

/-- C24 (evaluation of the code): the history of the prompt is made of the
first `min(n, 5)` turns of the history, the oldest ones, and the prompt has
it after the heading of the history.  For the history of the six turns `m1`
to `m6` it is the lines of `m1` to `m5`, not the lines of the five most
recent turns `m2` to `m6`.  For a history of at most five turns the two
agree. -/
theorem prompt_history_keeps_oldest_turns :
    (∀ chatHistory : List HistoryEntry,
      buildHistory chatHistory = (chatHistory.take 5).flatMap historyLine) ∧
    (∀ (req : SuggestionRequest) (prompt : Bytes), buildPrompt req = some prompt →
      ∃ head tail : Bytes,
        prompt = head ++ utf8 "- 对话历史:\n" ++ buildHistory req.ChatHistory
          ++ utf8 "\n- 对方特点:\n" ++ tail) ∧
    buildHistory exampleHistory
      = utf8 "你: m1\n对方: m2\n你: m3\n对方: m4\n你: m5\n" ∧
    recentHistory exampleHistory
      = utf8 "对方: m2\n你: m3\n对方: m4\n你: m5\n对方: m6\n" ∧
    buildHistory exampleHistory ≠ recentHistory exampleHistory ∧
    (∀ chatHistory : List HistoryEntry, chatHistory.length ≤ 5 →
      buildHistory chatHistory = recentHistory chatHistory) := by
  refine ⟨buildHistory_eq, ?_, by decide, by decide, by decide, ?_⟩
  swap
  · intro chatHistory hlen
    rw [buildHistory_eq, recentHistory, List.take_of_length_le hlen,
      Nat.sub_eq_zero_of_le hlen, List.drop_zero]
  intro req prompt h
  unfold buildPrompt at h
  cases ht : buildTraits req.TargetTraits with
  | none => simp [ht] at h
  | some traits =>
    simp only [ht, Option.bind_eq_bind, Option.some_bind, pure, Option.some.injEq] at h
    have e4 : utf8 promptPart4 = utf8 ")\n" ++ utf8 "- 对话历史:\n" := by decide
    have e5 : utf8 promptPart5 = utf8 "\n- 对方特点:\n" := by decide
    have H : ∀ a b c d e f g i j : Bytes,
        a ++ (b ++ c) ++ d ++ e ++ f ++ g ++ i ++ j
          = (a ++ b) ++ c ++ d ++ e ++ (f ++ (g ++ (i ++ j))) := by
      intro a b c d e f g i j
      simp only [List.append_assoc]
    rw [← h, e4, e5]
    exact ⟨_, _, H _ _ _ _ _ _ _ _ _⟩

/-! ## Reading the answer -/

/-- When `extractJSON` fails: exactly when the trimmed text has both braces
and its last closing brace lies more than one position before its first
opening brace. -/
theorem extractJSON_eq_none_iff (s : Bytes) :
    extractJSON s = none ↔
      (123 ∈ trimSpace s ∧ 125 ∈ trimSpace s ∧
        lastIndex (trimSpace s) 125 + 1 < index (trimSpace s) 123) := by
  unfold extractJSON
  simp only
  generalize trimSpace s = t
  unfold index lastIndex slice
  by_cases h1 : 123 ∈ t
  · by_cases h2 : 125 ∈ t
    · have hlen : 0 < t.length := List.length_pos_of_mem h2
      simp only [h1, h2, if_true, true_and]
      have e1 : ((List.indexOf 123 t : Nat) : Int) ≠ -1 := by omega
      have e2 : ((t.length - 1 - List.indexOf 125 t.reverse : Nat) : Int) ≠ -1 := by omega
      simp only [e1, e2, if_false]
      constructor
      · intro h
        by_contra hcon
        rw [if_pos] at h
        · cases h
        · omega
      · intro h
        rw [if_neg]
        omega
    · simp [h1, h2]
  · simp [h1]

/-- C30 (evaluation of the code): for the text of a closing brace, a space
and an opening brace, `extractJSON` fails at the slice `s[start : end+1]`,
with `start` 2 and `end` 0.  It fails exactly for the texts whose last
closing brace lies more than one position before the first opening brace,
and returns the trimmed text when one of the two braces is missing. -/
theorem extractJSON_fails_on_reversed_braces :
    extractJSON (utf8 "\x7d \x7b") = none ∧
    index (trimSpace (utf8 "\x7d \x7b")) 123 = 2 ∧
    lastIndex (trimSpace (utf8 "\x7d \x7b")) 125 = 0 ∧
    (∀ s : Bytes, extractJSON s = none ↔
      (123 ∈ trimSpace s ∧ 125 ∈ trimSpace s ∧
        lastIndex (trimSpace s) 125 + 1 < index (trimSpace s) 123)) ∧
    (∀ s : Bytes, 123 ∉ trimSpace s ∨ 125 ∉ trimSpace s →
      extractJSON s = some (trimSpace s)) := by
  refine ⟨by decide, by decide, by decide, extractJSON_eq_none_iff, ?_⟩
  intro s h
  unfold extractJSON
  simp only
  generalize trimSpace s = t at h
  unfold index lastIndex
  by_cases h1 : 123 ∈ t
  · have h2 : 125 ∉ t := h.resolve_left (fun hn => hn h1)
    simp only [h1, h2, if_true, if_false]
    have e1 : ((List.indexOf 123 t : Nat) : Int) ≠ -1 := by omega
    simp [e1]
  · simp [h1]

/-! ## The suggestion list -/

/-- C22 (counterexample): the model answers with a JSON text that holds one
suggestion; `parseSuggestions` accepts it and the list `getAISuggestions`
answers with has one entry. -/
theorem decoded_list_of_one_is_passed_on :
    getAISuggestions exampleEnv exampleRequest
      = some [{ Text := "hi", Style := "s", Reason := "r" }] ∧
    (getAISuggestions exampleEnv exampleRequest).map List.length = some 1 := by
  constructor
  · decide
  · decide

/-- C22 (amended): the list `getAISuggestions` answers with is either the
fallback list, of exactly three entries, or it is the list decoded from the
answer of the model, which has at least one entry. -/
theorem suggestions_fallback_or_decoded (env : Env) (req : SuggestionRequest)
    (suggestions : List Suggestion) (h : getAISuggestions env req = some suggestions) :
    (suggestions = getFallbackSuggestions req.UserFlirtStyle req.Stage req.OtherUserNickname ∧
      suggestions.length = 3) ∨
    (1 ≤ suggestions.length ∧ env.apiKey ≠ "" ∧
      ∃ prompt response text : Bytes,
        buildPrompt req = some prompt ∧ env.call prompt = .ok response ∧
        extractJSON response = some text ∧ env.unmarshal text = some suggestions) := by
  have hfb : ∀ l, some (getFallbackSuggestions req.UserFlirtStyle req.Stage
      req.OtherUserNickname) = some l →
      l = getFallbackSuggestions req.UserFlirtStyle req.Stage req.OtherUserNickname ∧
        l.length = 3 := by
    intro l hl
    cases hl
    refine ⟨rfl, ?_⟩
    unfold getFallbackSuggestions
    simp
  unfold getAISuggestions GenerateSuggestions at h
  by_cases hkey : env.apiKey = ""
  · simp only [hkey, if_true] at h
    exact Or.inl (hfb _ h)
  · simp only [hkey, if_false] at h
    cases hp : buildPrompt req with
    | none => simp [hp] at h
    | some prompt =>
      simp only [hp] at h
      cases hcall : env.call prompt with
      | error err =>
        simp only [hcall] at h
        exact Or.inl (hfb _ h)
      | ok response =>
        simp only [hcall] at h
        unfold parseSuggestions at h
        cases hx : extractJSON response with
        | none => simp [hx] at h
        | some text =>
          simp only [hx] at h
          cases hu : env.unmarshal text with
          | none =>
            simp only [hu] at h
            exact Or.inl (hfb _ h)
          | some l =>
            simp only [hu] at h
            by_cases hl : l.length = 0
            · simp only [hl, if_true] at h
              exact Or.inl (hfb _ h)
            · simp only [hl, if_false, Option.some.injEq] at h
              subst h
              exact Or.inr ⟨by omega, hkey, prompt, response, text, rfl, hcall, hx, hu⟩

/-- C22 (amended), for the answer with one suggestion. -/
theorem suggestions_fallback_or_decoded_witness :
    ([({ Text := "hi", Style := "s", Reason := "r" } : Suggestion)]
        = getFallbackSuggestions exampleRequest.UserFlirtStyle exampleRequest.Stage
            exampleRequest.OtherUserNickname ∧
      [({ Text := "hi", Style := "s", Reason := "r" } : Suggestion)].length = 3) ∨
    (1 ≤ [({ Text := "hi", Style := "s", Reason := "r" } : Suggestion)].length ∧
      exampleEnv.apiKey ≠ "" ∧
      ∃ prompt response text : Bytes,
        buildPrompt exampleRequest = some prompt ∧ exampleEnv.call prompt = .ok response ∧
        extractJSON response = some text ∧
        exampleEnv.unmarshal text
          = some [({ Text := "hi", Style := "s", Reason := "r" } : Suggestion)]) :=
  suggestions_fallback_or_decoded exampleEnv exampleRequest
    [{ Text := "hi", Style := "s", Reason := "r" }] (by decide)

end Suggest
